import Mathlib

/-!
Verification of the micro-SaaS opportunity engine (Python sources under
`src/`).  The scoring engine, critic, feedback store, recommendation
logic, configuration loading and the refinement loop are embedded
shallowly: strings are `String` / `List Char`, Python floats are `ℚ`,
Python ints are `Int`, a raised exception is `Option`/`Except` failure.
The sentence-transformer similarity model used by
`ScoringEngine._semantic_match` is external to the repository, so the
scoring functions take the (label, similarity, phrase) classifier as an
explicit function parameter; everything downstream of the classifier is
embedded from the source.
-/

/- ---------------------------------------------------------------
   Python string primitives (ASCII-faithful, over `List Char`).
   --------------------------------------------------------------- -/

/-- `startsWithChars needle hay` is Python `hay.startswith(needle)`. -/
def startsWithChars : List Char → List Char → Bool
  | [], _ => true
  | _ :: _, [] => false
  | a :: as, b :: bs => a = b && startsWithChars as bs

/-- `pyIn needle hay` is Python `needle in hay` (substring containment). -/
def pyIn (needle : List Char) : List Char → Bool
  | [] => startsWithChars needle []
  | c :: t => startsWithChars needle (c :: t) || pyIn needle t

/-- Substring containment on `String`s. -/
def pyInS (needle hay : String) : Bool := pyIn needle.data hay.data

/-- Python `str.lower()` (ASCII case folding, as in the source's usage). -/
def lowerS (s : String) : String := ⟨s.data.map Char.toLower⟩

/-- Python `str.replace(pat, "")`, removing all left-to-right
non-overlapping occurrences of `pat`. -/
def removeSub (pat : List Char) : List Char → List Char
  | [] => []
  | c :: t =>
    if pat ≠ [] ∧ startsWithChars pat (c :: t) then
      removeSub pat ((c :: t).drop pat.length)
    else
      c :: removeSub pat t
termination_by l => l.length
decreasing_by
  · simp only [List.length_drop, List.length_cons]
    rename_i h
    cases pat with
    | nil => exact absurd rfl h.1
    | cons p ps => simp; omega
  · simp

/- ---------------------------------------------------------------
   Price parser: `ScoringEngine._parse_revenue_model`.
   The regex is
     (?:\$|£|€)?\s*(\d+(?:[.,]\d{3})*(?:\.\d+)?)\s*
       (?:[–-]\s*(?:\$|£|€)?\s*(\d+(?:[.,]\d{3})*(?:\.\d+)?))?
   scanned with `re.finditer` (leftmost, non-overlapping matches).
   --------------------------------------------------------------- -/

/-- The currency alternation `(?:\$|£|€)` of the price regex. -/
def isCurrency (c : Char) : Bool := c = '$' || c = '£' || c = '€'

/-- The range-dash class `[–-]` of the price regex. -/
def isDashChar (c : Char) : Bool := c = '–' || c = '-'

/-- `\s` (the whitespace characters relevant to the inputs at hand). -/
def isSpaceChar (c : Char) : Bool :=
  c = ' ' || c = '\t' || c = '\n' || c = '\r' || c = '\x0b' || c = '\x0c'

/-- Drop one leading currency symbol if present (the optional
`(?:\$|£|€)?`). -/
def dropCurrency : List Char → List Char
  | [] => []
  | c :: t => if isCurrency c then t else c :: t

/-- The `(?:[.,]\d{3})*` loop: thousands groups, each a separator
followed by exactly three digits.  Returns (consumed, rest). -/
def thousandGroups : List Char → List Char × List Char
  | sep :: d1 :: d2 :: d3 :: rest =>
    if (sep = '.' || sep = ',') && d1.isDigit && d2.isDigit && d3.isDigit then
      let p := thousandGroups rest
      (sep :: d1 :: d2 :: d3 :: p.1, p.2)
    else ([], sep :: d1 :: d2 :: d3 :: rest)
  | cs => ([], cs)

/-- The optional decimal part `(?:\.\d+)?`.  Returns (consumed, rest). -/
def decimalPart : List Char → List Char × List Char
  | [] => ([], [])
  | c :: t =>
    if c = '.' ∧ (t.takeWhile Char.isDigit) ≠ [] then
      ('.' :: t.takeWhile Char.isDigit, t.dropWhile Char.isDigit)
    else ([], c :: t)

/-- One numeric token `\d+(?:[.,]\d{3})*(?:\.\d+)?` (greedy, as the
regex engine matches it).  Returns the matched characters and the rest. -/
def parseNumber (cs : List Char) : Option (List Char × List Char) :=
  if cs.takeWhile Char.isDigit = [] then none
  else
    some (cs.takeWhile Char.isDigit
            ++ (thousandGroups (cs.dropWhile Char.isDigit)).1
            ++ (decimalPart (thousandGroups (cs.dropWhile Char.isDigit)).2).1,
          (decimalPart (thousandGroups (cs.dropWhile Char.isDigit)).2).2)

/-- One attempt of the whole price pattern at the current position.
On success returns the captured number tokens (group 1, and group 2
when the range part matched) and the remainder after the match. -/
def matchPriceAt (cs : List Char) : Option (List (List Char) × List Char) :=
  match parseNumber ((dropCurrency cs).dropWhile isSpaceChar) with
  | none => none
  | some (n1, r1) =>
    match r1.dropWhile isSpaceChar with
    | [] => some ([n1], [])
    | d :: t =>
      if isDashChar d then
        match parseNumber ((dropCurrency (t.dropWhile isSpaceChar)).dropWhile isSpaceChar) with
        | some (n2, r3) => some ([n1, n2], r3)
        | none => some ([n1], d :: t)
      else some ([n1], d :: t)

theorem dropWhileLen (p : α → Bool) (l : List α) :
    (l.dropWhile p).length ≤ l.length := by
  induction l with
  | nil => simp [List.dropWhile]
  | cons c t ih =>
    simp only [List.dropWhile]
    split
    · exact Nat.le_succ_of_le ih
    · simp

theorem dropCurrencyLen (l : List Char) : (dropCurrency l).length ≤ l.length := by
  cases l with
  | nil => simp [dropCurrency]
  | cons c t =>
    simp only [dropCurrency]
    split
    · simp
    · simp

theorem thousandGroupsLen (l : List Char) : (thousandGroups l).2.length ≤ l.length := by
  induction l using thousandGroups.induct with
  | case1 sep d1 d2 d3 rest h ih =>
    simp only [thousandGroups, h, if_true]
    exact Nat.le_trans ih (by simp only [List.length_cons]; omega)
  | case2 sep d1 d2 d3 rest h =>
    simp [thousandGroups, h]
  | case3 cs h =>
    cases cs with
    | nil => simp [thousandGroups]
    | cons a t =>
      cases t with
      | nil => simp [thousandGroups]
      | cons b u =>
        cases u with
        | nil => simp [thousandGroups]
        | cons e v =>
          cases v with
          | nil => simp [thousandGroups]
          | cons f w => exact absurd rfl (h a b e f w)

theorem decimalPartLen (l : List Char) : (decimalPart l).2.length ≤ l.length := by
  cases l with
  | nil => simp [decimalPart]
  | cons c t =>
    simp only [decimalPart]
    split
    · exact Nat.le_succ_of_le (dropWhileLen _ _)
    · simp

theorem dropWhileDigitsLt (cs : List Char) (hds : cs.takeWhile Char.isDigit ≠ []) :
    (cs.dropWhile Char.isDigit).length < cs.length := by
  cases cs with
  | nil => simp [List.takeWhile] at hds
  | cons c t =>
    by_cases hc : Char.isDigit c
    · simpa [List.dropWhile, hc] using Nat.lt_succ_of_le (dropWhileLen _ t)
    · simp [List.takeWhile, hc] at hds

theorem parseNumberLen (cs n r : List Char) (h : parseNumber cs = some (n, r)) :
    r.length < cs.length := by
  unfold parseNumber at h
  split at h
  · exact absurd h (by simp)
  · next hds =>
    simp only [Option.some.injEq, Prod.mk.injEq] at h
    calc r.length
        = (decimalPart (thousandGroups (cs.dropWhile Char.isDigit)).2).2.length := by
          rw [h.2]
      _ ≤ (thousandGroups (cs.dropWhile Char.isDigit)).2.length := decimalPartLen _
      _ ≤ (cs.dropWhile Char.isDigit).length := thousandGroupsLen _
      _ < cs.length := dropWhileDigitsLt cs hds

theorem matchPriceAtLen (cs : List Char) (gs : List (List Char)) (r : List Char)
    (h : matchPriceAt cs = some (gs, r)) : r.length < cs.length := by
  unfold matchPriceAt at h
  have hbase : ((dropCurrency cs).dropWhile isSpaceChar).length ≤ cs.length :=
    Nat.le_trans (dropWhileLen _ _) (dropCurrencyLen _)
  split at h
  · exact absurd h (by simp)
  · next n1 r1 hn1 =>
    have hr1 : r1.length < cs.length :=
      Nat.lt_of_lt_of_le (parseNumberLen _ _ _ hn1) hbase
    split at h
    · next hnil =>
      simp only [Option.some.injEq, Prod.mk.injEq] at h
      rw [← h.2]
      simpa using Nat.lt_of_le_of_lt (Nat.zero_le _) hr1
    · next d t hdt =>
      have hdtlen : (d :: t).length ≤ r1.length := by
        rw [← hdt]; exact dropWhileLen _ _
      split at h
      · split at h
        · next n2 r3 hn2 =>
          simp only [Option.some.injEq, Prod.mk.injEq] at h
          rw [← h.2]
          have h3 :
              r3.length <
                ((dropCurrency (t.dropWhile isSpaceChar)).dropWhile isSpaceChar).length :=
            parseNumberLen _ _ _ hn2
          have h4 :
              ((dropCurrency (t.dropWhile isSpaceChar)).dropWhile isSpaceChar).length ≤
                t.length :=
            Nat.le_trans (dropWhileLen _ _)
              (Nat.le_trans (dropCurrencyLen _) (dropWhileLen _ _))
          have h5 : t.length < r1.length := by
            have := hdtlen
            simp only [List.length_cons] at this
            omega
          omega
        · simp only [Option.some.injEq, Prod.mk.injEq] at h
          rw [← h.2]
          have h5 : (d :: t).length ≤ r1.length := hdtlen
          omega
      · simp only [Option.some.injEq, Prod.mk.injEq] at h
        rw [← h.2]
        have h5 : (d :: t).length ≤ r1.length := hdtlen
        omega

/-- All numeric tokens found by `re.finditer` with the price pattern,
in order (a matched range contributes its two endpoint tokens). -/
def scanPriceTokens (cs : List Char) : List (List Char) :=
  match h : matchPriceAt cs with
  | some (gs, rest) => gs ++ scanPriceTokens rest
  | none =>
    match cs with
    | [] => []
    | _ :: t => scanPriceTokens t
termination_by cs.length
decreasing_by
  · exact matchPriceAtLen _ _ _ h
  · simp

/-- Value of a digit string (`int` of the digits, base 10). -/
def digitsVal (ds : List Char) : Nat :=
  ds.foldl (fun n c => 10 * n + (c.toNat - '0'.toNat)) 0

/-- Python `float(token.replace(",", ""))` for a token captured by the
price regex: commas are removed first; a string that still contains two
decimal points (e.g. from `"$1.234.56"`) makes `float` raise
`ValueError`, which the source does not catch — modelled as `none`. -/
def pyFloat (cs : List Char) : Option ℚ :=
  if ((cs.filter (fun c => c ≠ ',')).count '.') ≥ 2 then none
  else if cs.filter (fun c => c ≠ ',') = [] then none
  else
    some
      ((digitsVal ((cs.filter (fun c => c ≠ ',')).takeWhile (fun c => c ≠ '.')) : ℚ) +
        (digitsVal (((cs.filter (fun c => c ≠ ',')).dropWhile (fun c => c ≠ '.')).drop 1) : ℚ) /
          (10 : ℚ) ^ (((cs.filter (fun c => c ≠ ',')).dropWhile (fun c => c ≠ '.')).drop 1).length)

/- ---------------------------------------------------------------
   Data model (`src/models.py`).
   --------------------------------------------------------------- -/

/-- `models.ScoreDetail`: a score value, its maximum, and a rationale. -/
structure ScoreDetail where
  value : Int
  max : Int
  rationale : String
deriving DecidableEq, Repr

/-- `models.IdeaScores`: the five scoring dimensions. -/
structure IdeaScores where
  demand : ScoreDetail
  acquisition : ScoreDetail
  mvp_complexity : ScoreDetail
  competition : ScoreDetail
  revenue_velocity : ScoreDetail
deriving DecidableEq, Repr

/-- `IdeaScores.total`: componentwise sum, recomputed on access. -/
def IdeaScores.total (s : IdeaScores) : ScoreDetail :=
  { value := s.demand.value + s.acquisition.value + s.mvp_complexity.value
      + s.competition.value + s.revenue_velocity.value,
    max := s.demand.max + s.acquisition.max + s.mvp_complexity.max
      + s.competition.max + s.revenue_velocity.max,
    rationale := "Sum of component scores" }

/-- A raw idea record (the dict consumed by the engine).  Optional dict
keys are `Option` fields; `search_volume` / `keyword_difficulty` carry
the integer seen by `_safe_int` (absent or unparseable is `none`). -/
structure RawIdea where
  title : String
  icp : String
  pain : String
  solution : String
  revenue_model : String
  key_risks : List String
  credibility : Option String
  source : Option String
  source_date : Option String
  search_volume : Option Int
  keyword_difficulty : Option Int
  trend_status : Option String
deriving DecidableEq, Repr

/-- `models.Idea`: a scored idea (evidence is always `[]` in the
engine, kept as a list of strings). -/
structure Idea where
  title : String
  icp : String
  pain : String
  solution : String
  revenue_model : String
  search_volume : Option Int
  keyword_difficulty : Option Int
  trend_status : String
  evidence : List String
  scores : IdeaScores
  recommendation : String
  key_risks : List String
  final_total : ℚ
  critic_adjustment : ℚ
  feedback_adjustment : ℚ
  critic_rationale : String
deriving DecidableEq, Repr

/- ---------------------------------------------------------------
   Scoring engine (`src/scoring.py`).
   --------------------------------------------------------------- -/

/-- Price bands; `_get_price_band` only ever returns the strings
"low" / "mid" / "high", represented by these constructors. -/
inductive PriceBand where
  | low
  | mid
  | high
deriving DecidableEq, Repr

def PriceBand.name : PriceBand → String
  | .low => "low"
  | .mid => "mid"
  | .high => "high"

/-- One row of `price_band_adjustments` (a dict keyed by band name). -/
structure BandAdj where
  low : Int
  mid : Int
  high : Int
deriving DecidableEq, Repr

/-- `self.price_band_adjustments[dim].get(band, 0)`. -/
def BandAdj.get (a : BandAdj) : PriceBand → Int
  | .low => a.low
  | .mid => a.mid
  | .high => a.high

/-- The scoring configuration after `ScoringEngine.__init__` has pulled
`maxima`, `price_band_buckets` and `price_band_adjustments` out of the
merged config dict. -/
structure ScoringConfig where
  maxDemand : Int
  maxAcquisition : Int
  maxMvpComplexity : Int
  maxCompetition : Int
  maxRevenueVelocity : Int
  bucketLow : ℚ
  bucketMid : ℚ
  adjDemand : BandAdj
  adjAcquisition : BandAdj
  adjMvpComplexity : BandAdj
deriving DecidableEq, Repr

/-- The built-in `default_config` of `ScoringEngine._load_config`. -/
def scoringDefaults : ScoringConfig :=
  { maxDemand := 30, maxAcquisition := 20, maxMvpComplexity := 20,
    maxCompetition := 20, maxRevenueVelocity := 10,
    bucketLow := 120, bucketMid := 500,
    adjDemand := ⟨2, 0, -2⟩, adjAcquisition := ⟨1, 0, -2⟩,
    adjMvpComplexity := ⟨-1, 0, 1⟩ }

/-- Result of `_parse_revenue_model`. -/
structure ParsedRevenue where
  prices : List ℚ
  contact_sales : Bool
  freemium : Bool
deriving DecidableEq, Repr

/-- The `contact_sales_triggers` list of `_parse_revenue_model`. -/
def contactSalesTriggers : List String :=
  ["contact sales", "talk to sales", "contact us", "book a demo",
   "schedule a demo", "request pricing", "request a quote", "call for pricing"]

/-- The Python `for`-loop shape of collecting `Option` results: the
first failure (raised exception) aborts the whole computation. -/
def mapOption (f : α → Option β) : List α → Option (List β)
  | [] => some []
  | a :: t =>
    match f a, mapOption f t with
    | some b, some bs => some (b :: bs)
    | _, _ => none

/-- `ScoringEngine._parse_revenue_model`.  `none` models the uncaught
`ValueError` that `float` raises on a token with two decimal points. -/
def parseRevenueModel (revenue_model : String) : Option ParsedRevenue :=
  match mapOption pyFloat (scanPriceTokens revenue_model.data) with
  | none => none
  | some prices =>
    some
      { prices := prices,
        contact_sales :=
          contactSalesTriggers.any (fun t => pyInS t (lowerS revenue_model)),
        freemium :=
          pyInS "freemium" (lowerS revenue_model)
            || pyInS "free" (lowerS revenue_model) }

/-- `ScoringEngine._get_price_band`. -/
def getPriceBand (cfg : ScoringConfig) (revenue_model : String) : Option PriceBand :=
  match parseRevenueModel revenue_model with
  | none => none
  | some parsed =>
    some
      (if parsed.contact_sales then PriceBand.high
       else if parsed.freemium ∧ parsed.prices = [] then PriceBand.low
       else if parsed.prices = [] then PriceBand.mid
       else if parsed.prices.sum / (parsed.prices.length : ℚ) ≤ cfg.bucketLow then
         PriceBand.low
       else if parsed.prices.sum / (parsed.prices.length : ℚ) ≤ cfg.bucketMid then
         PriceBand.mid
       else PriceBand.high)

/-- `ScoringEngine._clamp_score`. -/
def clampScore (value maximum : Int) : Int := max (min value maximum) 0

/-- The `(label, similarity, phrase)` classifier
`ScoringEngine._semantic_match(text, reference_key)`; its output
depends on the external sentence-transformer model, so it is a
parameter of the embedding. -/
def SemFn : Type := String → String → String × ℚ × String

/-- `mild_keywords` of `score_demand`. -/
def mildKeywords : List String :=
  ["minor", "inconvenience", "nice to have", "not urgent", "small hassle"]

/-- `self.demand_signals["mild"][0]`, the phrase forced by the
low-similarity / mild-language guardrail. -/
def demandMildPhrase : String :=
  "The problem exists but is more of an inconvenience than a blocker"

/-- `ScoringEngine.score_demand` (the `:.2f` similarity and `:+`
adjustment formatting of the rationale f-string is elided). -/
def scoreDemand (cfg : ScoringConfig) (sem : SemFn) (idea : RawIdea) :
    Option ScoreDetail :=
  match getPriceBand cfg idea.revenue_model with
  | none => none
  | some band =>
    some
      (match sem idea.pain "demand" with
       | (label0, similarity, phrase0) =>
         let forced : Bool :=
           decide (similarity < 0.4)
             || mildKeywords.any (fun k => pyInS k (lowerS idea.pain))
         let label := if forced then "mild" else label0
         let phrase := if forced then demandMildPhrase else phrase0
         let base : Int :=
           if label = "acute" then 26 else if label = "moderate" then 22 else 16
         { value := clampScore (base + cfg.adjDemand.get band) cfg.maxDemand,
           max := cfg.maxDemand,
           rationale := "Semantic match to " ++ label ++ " pain (" ++ phrase
             ++ "); pricing band " ++ band.name ++ " adjustment applies" })

/-- `high_keywords` of `score_acquisition`. -/
def acquisitionHighKeywords : List String :=
  ["smb", "small", "startup", "developer", "marketing", "agency", "podcaster"]

/-- `niche_keywords` of `score_acquisition`. -/
def acquisitionNicheKeywords : List String :=
  ["freelancer", "creator", "service provider", "sales", "restaurant", "cafe",
   "local business", "content creator", "sales team", "sales reps", "landlord",
   "real estate", "contractor", "contractors", "msp", "lawyer", "attorney",
   "legal", "accountant", "tax", "bookkeeper", "shopify", "etsy", "airbnb",
   "host", "event", "wedding", "volunteer", "restaurant", "church", "nonprofit",
   "creator", "influencer", "affiliate"]

/-- `hard_keywords` of `score_acquisition`. -/
def acquisitionHardKeywords : List String :=
  ["lab", "clinical", "construction", "manufacturers", "manufacturing",
   "compliance", "esg", "digital twin"]

/-- `ScoringEngine.score_acquisition`. -/
def scoreAcquisition (cfg : ScoringConfig) (idea : RawIdea) : Option ScoreDetail :=
  match getPriceBand cfg idea.revenue_model with
  | none => none
  | some band =>
    some
      (let icp := lowerS idea.icp
       let adjustment := cfg.adjAcquisition.get band
       let br : Int × String :=
         if acquisitionHighKeywords.any (fun k => pyInS k icp) then
           (17, "Reachable audience with standard channels; calibrated slightly lower to reflect feedback")
         else if acquisitionNicheKeywords.any (fun k => pyInS k icp) then
           (15, "Niche audience is reachable through targeted outreach")
         else if acquisitionHardKeywords.any (fun k => pyInS k icp) then
           (13, "Audience exists but is specialized and harder to reach")
         else (11, "Audience is broad or unclear")
       { value := clampScore (br.1 + adjustment) cfg.maxAcquisition,
         max := cfg.maxAcquisition,
         rationale := br.2 ++ "; price band " ++ band.name
           ++ " adjustment reflects acquisition friction at that ticket size" })

/-- `ScoringEngine.score_mvp_complexity`. -/
def scoreMvpComplexity (cfg : ScoringConfig) (sem : SemFn) (idea : RawIdea) :
    Option ScoreDetail :=
  match getPriceBand cfg idea.revenue_model with
  | none => none
  | some band =>
    some
      (match sem idea.solution "complexity" with
       | (label, _similarity, phrase) =>
         let base : Int :=
           if label = "high" then 11 else if label = "moderate" then 14 else 17
         { value := clampScore (base + cfg.adjMvpComplexity.get band) cfg.maxMvpComplexity,
           max := cfg.maxMvpComplexity,
           rationale := "Solution aligns with " ++ label ++ " complexity exemplar ("
             ++ phrase ++ "); pricing band " ++ band.name ++ " adjustment applied" })

/-- `broad_market_keywords` of `score_competition`. -/
def competitionBroadKeywords : List String :=
  ["smb", "small", "marketing", "sales", "content creator", "developers", "agency"]

/-- `niche_keywords` of `score_competition`. -/
def competitionNicheKeywords : List String :=
  ["construction", "clinical", "compliance", "esg", "digital twin",
   "internal tool", "script generator", "podcast", "restaurant", "inventory"]

/-- `ScoringEngine.score_competition` (no price parsing: it only tests
for `$`, `+` and the en dash in the raw revenue-model string). -/
def scoreCompetition (cfg : ScoringConfig) (idea : RawIdea) : ScoreDetail :=
  let icp := lowerS idea.icp
  let revenue := idea.revenue_model
  let br : Int × String :=
    if competitionBroadKeywords.any (fun k => pyInS k icp) then
      (14, "Broad addressable market likely has many competitors")
    else if competitionNicheKeywords.any (fun k => pyInS k icp) then
      (17, "Vertical or specialized market reduces direct competition")
    else (12, "Market breadth unclear; assume higher competitive risk")
  let vr : Int × String :=
    if pyInS "$" revenue ∧ pyInS "+" revenue then
      (max (br.1 - 1) 12, br.2 ++ "; wide pricing range indicates varied competitors")
    else if pyInS "$" revenue ∧ pyInS "–" revenue then
      (br.1, br.2 ++ "; moderate pricing range")
    else if pyInS "$" revenue then
      (min (br.1 + 1) cfg.maxCompetition, br.2 ++ "; narrow pricing suggests clearer niche")
    else
      (max (br.1 - 2) 12, br.2 ++ "; unknown pricing increases uncertainty")
  { value := clampScore vr.1 cfg.maxCompetition,
    max := cfg.maxCompetition,
    rationale := vr.2 }

/-- `ScoringEngine.score_revenue_velocity`. -/
def scoreRevenueVelocity (cfg : ScoringConfig) (idea : RawIdea) : Option ScoreDetail :=
  match parseRevenueModel idea.revenue_model with
  | none => none
  | some pricing =>
    some
      (let vr : Int × String :=
        if pricing.freemium ∧ pricing.prices = [] then
          (9, "Freemium model suggests rapid adoption and faster velocity")
        else if pricing.contact_sales ∧ pricing.prices = [] then
          (6, "Contact sales motion implies slower velocity despite potential high contract values")
        else if pricing.prices = [] then
          (7, "No explicit pricing; assume mid-range velocity")
        else if pricing.prices.sum / (pricing.prices.length : ℚ) < 100 then
          (9, "Low average price implies faster adoption and higher velocity")
        else if pricing.prices.sum / (pricing.prices.length : ℚ) < 500 then
          (8, "Moderate pricing supports good revenue velocity")
        else (6, "High average price suggests slower customer acquisition")
       { value := clampScore vr.1 cfg.maxRevenueVelocity,
         max := cfg.maxRevenueVelocity,
         rationale := vr.2 })

/-- `ScoringEngine.score_idea`. -/
def scoreIdea (cfg : ScoringConfig) (sem : SemFn) (idea : RawIdea) :
    Option IdeaScores := do
  let d ← scoreDemand cfg sem idea
  let a ← scoreAcquisition cfg idea
  let m ← scoreMvpComplexity cfg sem idea
  let v ← scoreRevenueVelocity cfg idea
  pure { demand := d, acquisition := a, mvp_complexity := m,
         competition := scoreCompetition cfg idea, revenue_velocity := v }

/- ---------------------------------------------------------------
   Credibility critic (`src/critic.py`).
   --------------------------------------------------------------- -/

/-- The critic configuration after `Critic.__init__` has extracted the
domain lists, penalty and bonus magnitudes, and the current year. -/
structure CriticConfig where
  trustedDomains : List String
  blockedDomains : List String
  noveltyKeywords : List String
  penBlockedDomain : ℚ
  penNovelty : ℚ
  penStale : ℚ
  bonusTrustedDomain : ℚ
  bonusRecent : ℚ
  currentYear : Int
deriving DecidableEq, Repr

/-- The netloc component of `urllib.parse.urlparse`: the text after the
first `//`, up to the next `/`, `?` or `#` (empty when there is no `//`). -/
def netlocOf : List Char → List Char
  | [] => []
  | c :: t =>
    if startsWithChars ['/', '/'] (c :: t) then
      ((c :: t).drop 2).takeWhile (fun ch => ch ≠ '/' ∧ ch ≠ '?' ∧ ch ≠ '#')
    else netlocOf t

/-- `Critic._extract_domain`. -/
def extractDomain (source : String) : String :=
  if startsWithChars "http".data source.data then
    ⟨removeSub "www.".data ((netlocOf source.data).map Char.toLower)⟩
  else lowerS source

/-- Python `int(s)` on a string: optional surrounding whitespace, an
optional sign, then decimal digits; anything else raises (`none`). -/
def pyIntOpt (cs0 : List Char) : Option Int :=
  match ((cs0.dropWhile isSpaceChar).reverse.dropWhile isSpaceChar).reverse with
  | '+' :: ds =>
    if ds ≠ [] ∧ ds.all Char.isDigit then some (digitsVal ds : Int) else none
  | '-' :: ds =>
    if ds ≠ [] ∧ ds.all Char.isDigit then some (-(digitsVal ds : Int)) else none
  | ds =>
    if ds ≠ [] ∧ ds.all Char.isDigit then some (digitsVal ds : Int) else none

/-- `int(date_str.split("-")[0])` with the surrounding try/except:
the leading year of a date string, `none` when unparseable. -/
def yearOf (date : String) : Option Int :=
  pyIntOpt (date.data.takeWhile (fun c => c ≠ '-'))

/-- The recency term of `Critic.evaluate`: empty/missing dates and
parse failures contribute nothing. -/
def criticRecency (c : CriticConfig) (source_date : Option String) : ℚ :=
  match source_date with
  | none => 0
  | some ds =>
    if ds = "" then 0
    else
      match yearOf ds with
      | none => 0
      | some year =>
        if c.currentYear - year > 3 then c.penStale
        else if c.currentYear - year ≤ 1 then c.bonusRecent
        else 0

/-- `Critic.evaluate`: the numeric credibility adjustment. -/
def criticEvaluate (c : CriticConfig) (idea : RawIdea) : ℚ :=
  let domain := extractDomain (idea.source.getD "")
  let credibility := lowerS (idea.credibility.getD "medium")
  let text_content := lowerS (idea.title ++ " " ++ idea.solution)
  (if c.trustedDomains.any (fun t => pyInS t domain) then c.bonusTrustedDomain else 0)
    + (if c.blockedDomains.any (fun b => pyInS b domain) then c.penBlockedDomain else 0)
    + (if credibility = "high" then 2 else if credibility = "low" then -2 else 0)
    + (if c.noveltyKeywords.any (fun k => pyInS k text_content) then c.penNovelty else 0)
    + criticRecency c idea.source_date

def joinSemicolon : List String → String
  | [] => ""
  | [s] => s
  | s :: t => s ++ "; " ++ joinSemicolon t

/-- Modelled from the spec: `Critic.evaluate_with_rationale` is invoked
by `OpportunityEngine._run_iteration` / `generate_opportunities` and by
`tests/test_critic_enhanced.py`, but its definition is not among the
sources; per the spec contract it returns the numeric adjustment
together with "a short human-readable string naming which signals
fired" (trusted/blocked domain, credibility label, novelty, recency). -/
def criticEvaluateWithRationale (c : CriticConfig) (idea : RawIdea) : ℚ × String :=
  let domain := extractDomain (idea.source.getD "")
  let credibility := lowerS (idea.credibility.getD "medium")
  let text_content := lowerS (idea.title ++ " " ++ idea.solution)
  let signals : List String :=
    (if c.trustedDomains.any (fun t => pyInS t domain) then ["trusted domain"] else [])
      ++ (if c.blockedDomains.any (fun b => pyInS b domain) then ["blocked domain"] else [])
      ++ (if credibility = "high" then ["high credibility label"]
          else if credibility = "low" then ["low credibility label"] else [])
      ++ (if c.noveltyKeywords.any (fun k => pyInS k text_content) then ["novelty keyword"] else [])
      ++ (match idea.source_date with
          | none => []
          | some ds =>
            if ds = "" then []
            else
              match yearOf ds with
              | none => []
              | some year =>
                if c.currentYear - year > 3 then ["stale source"]
                else if c.currentYear - year ≤ 1 then ["recent source"]
                else [])
  (criticEvaluate c idea, joinSemicolon signals)

/- ---------------------------------------------------------------
   Feedback store (`src/feedback.py`).
   --------------------------------------------------------------- -/

/-- First-match association-list lookup (Python dict access). -/
def assocGet : List (String × β) → String → Option β
  | [], _ => none
  | (k, v) :: t, s => if k = s then some v else assocGet t s

/-- Python `dict` assignment: overwrite in place or append. -/
def assocSet : List (String × β) → String → β → List (String × β)
  | [], k, v => [(k, v)]
  | (k0, v0) :: t, k, v =>
    if k0 = k then (k0, v) :: t else (k0, v0) :: assocSet t k v

/-- `UserFeedbackManager`: the feedback mapping with lower-cased keys. -/
structure FeedbackStore where
  feedback : List (String × ℚ)
deriving DecidableEq, Repr

/-- The key normalization of `UserFeedbackManager.__init__`:
`{k.lower(): float(v) for k, v in data.items()}`. -/
def feedbackOfRatings (entries : List (String × ℚ)) : FeedbackStore :=
  ⟨entries.foldl (fun d e => assocSet d (lowerS e.1) e.2) []⟩

/-- `UserFeedbackManager.get_adjustment`. -/
def getAdjustment (m : FeedbackStore) (title : String) : ℚ :=
  match assocGet m.feedback (lowerS title) with
  | none => 0.0
  | some rating => (rating - 2.5) * 2

/-- `UserFeedbackManager.add_rating`. -/
def addRating (m : FeedbackStore) (title : String) (rating : ℚ) : FeedbackStore :=
  ⟨assocSet m.feedback (lowerS title) rating⟩

/- ---------------------------------------------------------------
   Opportunity engine (`src/engine.py`).
   --------------------------------------------------------------- -/

/-- `OpportunityEngine._has_positive_external_signal` (the raw fields
already hold `_safe_int`'s result). -/
def hasPositiveExternalSignal (idea : RawIdea) : Bool :=
  (match idea.search_volume with
   | some v => decide (v ≥ 1000)
   | none => false)
    || (match idea.keyword_difficulty with
        | some v => decide (v ≤ 50)
        | none => false)
    || (lowerS (idea.trend_status.getD "") = "rising")

/-- `OpportunityEngine._recommendation`. -/
def recommendationFor (scores : IdeaScores) (adjusted_total : ℚ)
    (positive_external_signal : Bool) : String :=
  if adjusted_total ≥ 0.75 * (scores.total.max : ℚ)
      ∧ (scores.demand.value : ℚ) ≥ 0.8 * (scores.demand.max : ℚ)
      ∧ (scores.acquisition.value : ℚ) ≥ 0.75 * (scores.acquisition.max : ℚ)
      ∧ positive_external_signal = true then
    "green_build"
  else if adjusted_total ≥ 0.65 * (scores.total.max : ℚ) then
    "yellow_validate"
  else "red_kill"

/-- The body of `OpportunityEngine._run_iteration` for one idea record:
score, apply critic and feedback adjustments, clamp the adjusted total
by the two sequential `if`s, classify, and build the `Idea`. -/
def scoreOne (cfg : ScoringConfig) (sem : SemFn) (critic : CriticConfig)
    (fb : FeedbackStore) (d : RawIdea) : Option Idea :=
  match scoreIdea cfg sem d with
  | none => none
  | some scores =>
    some
      (let credPair := criticEvaluateWithRationale critic d
       let feedback_adjust := getAdjustment fb d.title
       let raw_total : ℚ := (scores.total.value : ℚ)
       let max_total : ℚ := (scores.total.max : ℚ)
       let t0 := raw_total + credPair.1 + feedback_adjust
       let t1 := if t0 < 0 then 0 else t0
       let adjusted_total := if t1 > max_total then max_total else t1
       { title := d.title, icp := d.icp, pain := d.pain, solution := d.solution,
         revenue_model := d.revenue_model,
         search_volume := d.search_volume,
         keyword_difficulty := d.keyword_difficulty,
         trend_status := d.trend_status.getD "Unknown",
         evidence := [],
         scores := scores,
         recommendation :=
           recommendationFor scores adjusted_total (hasPositiveExternalSignal d),
         key_risks := d.key_risks,
         final_total := adjusted_total,
         critic_adjustment := credPair.1,
         feedback_adjustment := feedback_adjust,
         critic_rationale := credPair.2 })

/-- `OpportunityEngine._run_iteration`: score the whole pool (a raised
`ValueError` from the price parser aborts the iteration: `none`). -/
def runIteration (cfg : ScoringConfig) (sem : SemFn) (critic : CriticConfig)
    (fb : FeedbackStore) (pool : List RawIdea) : Option (List Idea) :=
  mapOption (scoreOne cfg sem critic fb) pool

/-- Stable insertion into a sorted list (used to model Python's stable
`list.sort`). -/
def insSorted (le : α → α → Bool) (a : α) : List α → List α
  | [] => [a]
  | b :: t => if le a b then a :: b :: t else b :: insSorted le a t

/-- Stable sort: extensionally the ordering produced by Python's
stable `list.sort(key=...)`. -/
def stableSort (le : α → α → Bool) : List α → List α
  | [] => []
  | a :: t => insSorted le a (stableSort le t)

/-- `ideas.sort(key=lambda i: i.final_total, reverse=True)`: stable
descending sort by `final_total`. -/
def sortByFinalTotalDesc (ideas : List Idea) : List Idea :=
  stableSort (fun a b => decide (a.final_total ≥ b.final_total)) ideas

/-- Whether any scored idea is a green_build (the loop's exit test). -/
def anyGreen (scored : List Idea) : Bool :=
  scored.any (fun idea => idea.recommendation = "green_build")

/-- The `for iteration in range(max_iterations)` loop of
`OpportunityEngine.run`, abstracted over the scoring step
(`_run_iteration` reading the current pool) and the refinement step
(`refine_dataset` updating the pool); `α` is the engine's pool state. -/
def runLoop (scoreStep : α → List Idea) (refineStep : α → List Idea → α) :
    Nat → α → List Idea → List Idea
  | 0, _, ideas => ideas
  | n + 1, pool, _ =>
    let scored := scoreStep pool
    if anyGreen scored then scored
    else runLoop scoreStep refineStep n (refineStep pool scored) scored

/-- `OpportunityEngine.run` (console printing elided): at most
`max_iterations = 3` passes, early exit on a green idea, final ranking
by adjusted total. -/
def runEngine (scoreStep : α → List Idea) (refineStep : α → List Idea → α)
    (pool : α) : List Idea :=
  sortByFinalTotalDesc (runLoop scoreStep refineStep 3 pool [])

/-- Number of scoring passes (`_run_iteration` calls) the loop makes. -/
def runScoreCalls (scoreStep : α → List Idea) (refineStep : α → List Idea → α) :
    Nat → α → Nat
  | 0, _ => 0
  | n + 1, pool =>
    let scored := scoreStep pool
    if anyGreen scored then 1
    else 1 + runScoreCalls scoreStep refineStep n (refineStep pool scored)

/-- Number of `refine_dataset` calls the loop makes. -/
def runRefineCalls (scoreStep : α → List Idea) (refineStep : α → List Idea → α) :
    Nat → α → Nat
  | 0, _ => 0
  | n + 1, pool =>
    let scored := scoreStep pool
    if anyGreen scored then 0
    else 1 + runRefineCalls scoreStep refineStep n (refineStep pool scored)

/- ---------------------------------------------------------------
   Refinement (`OpportunityEngine.refine_dataset`).
   --------------------------------------------------------------- -/

/-- The two dimensions compared by the weakest-dimension heuristic. -/
inductive RefineDim where
  | demand
  | acquisition
deriving DecidableEq, Repr

/-- `getattr(idea.scores, dimension)` for the two dimension names. -/
def dimDetail : RefineDim → IdeaScores → ScoreDetail
  | .demand, s => s.demand
  | .acquisition, s => s.acquisition

/-- The inner `_avg_ratio` helper: mean of value/max over the scored
pool, dividing by `max(len(scored_ideas), 1)`. -/
def avgDimFrac (dim : RefineDim) (scored : List Idea) : ℚ :=
  (scored.map
      (fun i => ((dimDetail dim i.scores).value : ℚ) / ((dimDetail dim i.scores).max : ℚ))).sum
    / (max scored.length 1 : ℚ)

/-- `weakest_dimension = "demand" if _avg_ratio("demand") <= _avg_ratio("acquisition") else "acquisition"`. -/
def weakestDimension (scored : List Idea) : RefineDim :=
  if avgDimFrac .demand scored ≤ avgDimFrac .acquisition scored then .demand
  else .acquisition

/-- The candidate ordering of `refine_dataset`: ascending by the key
`(-dimension_score, -total_score)`, i.e. descending by the weakest
dimension's score, then descending by total score. -/
def candLe (dim : RefineDim) (a b : RawIdea × IdeaScores) : Bool :=
  decide ((dimDetail dim b.2).value < (dimDetail dim a.2).value)
    || (decide ((dimDetail dim a.2).value = (dimDetail dim b.2).value)
        && decide (b.2.total.value ≤ a.2.total.value))

/-- The filtering step of `refine_dataset`: drop ideas whose
recommendation is `red_kill` or whose critic adjustment is ≤ −5. -/
def refineFiltered (pool : List RawIdea) (scored : List Idea) : List RawIdea :=
  ((pool.zip scored).filter
      (fun p =>
        !(decide (p.2.recommendation = "red_kill"))
          && !(decide (p.2.critic_adjustment ≤ -5)))).map
    Prod.fst

/-- `OpportunityEngine.refine_dataset`, with the researcher's return
value (`search_micro_saas_ideas(theme)`) passed as `researched`.
Returns the new pool (`none` if scoring a candidate raises). -/
def refineDataset (cfg : ScoringConfig) (sem : SemFn) (researched : List RawIdea)
    (pool : List RawIdea) (scored : List Idea) : Option (List RawIdea) :=
  if 0 < (scored.countP (fun i => decide (i.recommendation = "green_build"))) then
    some pool
  else
    match
      mapOption (fun i => (scoreIdea cfg sem i).map (fun sc => (i, sc)))
        (researched.filter
          (fun i =>
            !(((refineFiltered pool scored).map RawIdea.title).contains i.title))) with
    | none => none
    | some cands =>
      some
        (refineFiltered pool scored
          ++ ((stableSort (candLe (weakestDimension scored)) cands).take 3).map Prod.fst)

/- ---------------------------------------------------------------
   Configuration loading (`ScoringEngine._load_config`,
   `Critic._load_config`).
   --------------------------------------------------------------- -/

/-- JSON-ish values as they occur in the two configuration files:
integers, lists of strings, nested objects. -/
inductive JVal where
  | jint : Int → JVal
  | jstrs : List String → JVal
  | jdict : List (String × JVal) → JVal

/-- Python `dict.update`: each overlay entry overwrites or appends. -/
def dUpdate (base overlay : List (String × JVal)) : List (String × JVal) :=
  overlay.foldl (fun b kv => assocSet b kv.1 kv.2) base

/-- The built-in `default_config` dict of `ScoringEngine._load_config`. -/
def scoringDefaultJ : List (String × JVal) :=
  [("maxima",
    JVal.jdict
      [("demand", JVal.jint 30), ("acquisition", JVal.jint 20),
       ("mvp_complexity", JVal.jint 20), ("competition", JVal.jint 20),
       ("revenue_velocity", JVal.jint 10)]),
   ("price_band_buckets",
    JVal.jdict [("low", JVal.jint 120), ("mid", JVal.jint 500)]),
   ("price_band_adjustments",
    JVal.jdict
      [("demand",
        JVal.jdict [("low", JVal.jint 2), ("mid", JVal.jint 0), ("high", JVal.jint (-2))]),
       ("acquisition",
        JVal.jdict [("low", JVal.jint 1), ("mid", JVal.jint 0), ("high", JVal.jint (-2))]),
       ("mvp_complexity",
        JVal.jdict [("low", JVal.jint (-1)), ("mid", JVal.jint 0), ("high", JVal.jint 1)])])]

/-- The merge loop of `ScoringEngine._load_config`: for every default
key whose user value is a dict, `default_config[key].update(user[key])`
(all default top-level values are dicts). -/
def scoringMerge (defaults user : List (String × JVal)) : List (String × JVal) :=
  defaults.map
    (fun kv =>
      match assocGet user kv.1, kv.2 with
      | some (JVal.jdict uv), JVal.jdict dv => (kv.1, JVal.jdict (dUpdate dv uv))
      | _, _ => kv)

/-- The three outcomes of opening and JSON-decoding the config file. -/
inductive ConfigFile where
  | missing
  | corrupt
  | parsed : List (String × JVal) → ConfigFile

/-- `ScoringEngine._load_config`: only `FileNotFoundError` is caught,
so a corrupt (undecodable) file propagates `json.JSONDecodeError`
(`Except.error`); a parsed file is merged over the defaults. -/
def scoringLoadConfig : ConfigFile → Except Unit (List (String × JVal))
  | .missing => .ok scoringDefaultJ
  | .corrupt => .error ()
  | .parsed user => .ok (scoringMerge scoringDefaultJ user)

/-- The built-in `default_config` dict of `Critic._load_config`. -/
def criticDefaultJ : List (String × JVal) :=
  [("trusted_domains", JVal.jstrs []),
   ("blocked_domains", JVal.jstrs []),
   ("novelty_keywords", JVal.jstrs []),
   ("penalties",
    JVal.jdict
      [("blocked_domain", JVal.jint (-20)), ("novelty", JVal.jint (-10)),
       ("stale", JVal.jint (-5))]),
   ("bonuses",
    JVal.jdict [("trusted_domain", JVal.jint 5), ("recent", JVal.jint 2)])]

/-- `Critic._load_config`: both `FileNotFoundError` and
`json.JSONDecodeError` are caught (falling back to the defaults); a
successfully parsed file is returned as-is, with no merging. -/
def criticLoadConfig : ConfigFile → List (String × JVal)
  | .missing => criticDefaultJ
  | .corrupt => criticDefaultJ
  | .parsed user => user

/-- The section extraction of `Critic.__init__`:
`self.config.get(key, default)` — the user's section replaces the
default section wholesale when the key is present. -/
def criticGetSection (cfg : List (String × JVal)) (key : String) (dflt : JVal) : JVal :=
  (assocGet cfg key).getD dflt

/- ---------------------------------------------------------------
   Helper lemmas.
   --------------------------------------------------------------- -/

/-- Non-dependent unfolding of `scanPriceTokens`, convenient for
rewriting. -/
theorem scanPriceTokensEq (cs : List Char) :
    scanPriceTokens cs =
      match matchPriceAt cs with
      | some (gs, rest) => gs ++ scanPriceTokens rest
      | none =>
        match cs with
        | [] => []
        | _ :: t => scanPriceTokens t := by
  rw [scanPriceTokens]
  split
  · next gs rest h => simp only [h]
  · next h =>
    cases cs with
    | nil => simp only [h]
    | cons c t => simp only [h]

theorem mapOptionMem (f : α → Option β) (l : List α) (out : List β)
    (h : mapOption f l = some out) : ∀ b ∈ out, ∃ a ∈ l, f a = some b := by
  induction l generalizing out with
  | nil =>
    simp only [mapOption, Option.some.injEq] at h
    subst h; intro b hb; simp at hb
  | cons a t ih =>
    simp only [mapOption] at h
    cases hfa : f a with
    | none => rw [hfa] at h; exact absurd h (by simp)
    | some b0 =>
      rw [hfa] at h
      cases hmt : mapOption f t with
      | none => rw [hmt] at h; exact absurd h (by simp)
      | some bs =>
        rw [hmt] at h
        simp only [Option.some.injEq] at h
        subst h
        intro b hb
        rcases List.mem_cons.1 hb with hb0 | hbs
        · exact ⟨a, by simp, by rw [hfa, hb0]⟩
        · obtain ⟨a1, ha1, hfa1⟩ := ih bs hmt b hbs
          exact ⟨a1, by simp [ha1], hfa1⟩

theorem clampScoreBounds (v m : Int) (hm : 0 ≤ m) :
    0 ≤ clampScore v m ∧ clampScore v m ≤ m := by
  simp only [clampScore]
  omega

/-- Real-interval clamping, the spec's `clamp(x, lo, hi)`. -/
def clampQ (x lo hi : ℚ) : ℚ := min (max x lo) hi

/-- The two sequential `if`s of `_run_iteration` compute exactly
`clamp(·, 0, max_total)`. -/
theorem seqIfEqClampQ (t0 mx : ℚ) :
    (if (if t0 < 0 then 0 else t0) > mx then mx else if t0 < 0 then 0 else t0)
      = clampQ t0 0 mx := by
  simp only [clampQ]
  rcases lt_or_le t0 0 with h | h
  · rw [if_pos h]
    rcases lt_or_le mx 0 with h2 | h2
    · rw [if_pos h2, max_eq_right h.le, min_eq_right h2.le]
    · rw [if_neg (not_lt.2 h2), max_eq_right h.le, min_eq_left h2]
  · rw [if_neg (not_lt.2 h)]
    rcases lt_or_le mx t0 with h2 | h2
    · rw [if_pos h2, max_eq_left h, min_eq_right h2.le]
    · rw [if_neg (not_lt.2 h2), max_eq_left h, min_eq_left h2]

theorem clampQBounds (x lo hi : ℚ) (h : lo ≤ hi) :
    lo ≤ clampQ x lo hi ∧ clampQ x lo hi ≤ hi := by
  constructor
  · exact le_min (le_max_right x lo) h
  · exact min_le_right _ _

/-- Unfolding of `scoreOne` on success: the produced `Idea` in terms of
the scoring result. -/
theorem scoreOneEq (cfg : ScoringConfig) (sem : SemFn) (critic : CriticConfig)
    (fb : FeedbackStore) (d : RawIdea) (i : Idea)
    (h : scoreOne cfg sem critic fb d = some i) :
    ∃ scores, scoreIdea cfg sem d = some scores ∧
      i =
        { title := d.title, icp := d.icp, pain := d.pain, solution := d.solution,
          revenue_model := d.revenue_model,
          search_volume := d.search_volume,
          keyword_difficulty := d.keyword_difficulty,
          trend_status := d.trend_status.getD "Unknown",
          evidence := [],
          scores := scores,
          recommendation :=
            recommendationFor scores
              (clampQ
                ((scores.total.value : ℚ) + (criticEvaluateWithRationale critic d).1
                  + getAdjustment fb d.title)
                0 (scores.total.max : ℚ))
              (hasPositiveExternalSignal d),
          key_risks := d.key_risks,
          final_total :=
            clampQ
              ((scores.total.value : ℚ) + (criticEvaluateWithRationale critic d).1
                + getAdjustment fb d.title)
              0 (scores.total.max : ℚ),
          critic_adjustment := (criticEvaluateWithRationale critic d).1,
          feedback_adjustment := getAdjustment fb d.title,
          critic_rationale := (criticEvaluateWithRationale critic d).2 } := by
  unfold scoreOne at h
  cases hs : scoreIdea cfg sem d with
  | none => rw [hs] at h; exact absurd h (by simp)
  | some scores =>
    rw [hs] at h
    simp only [Option.some.injEq] at h
    refine ⟨scores, rfl, ?_⟩
    rw [← h]
    have hc := seqIfEqClampQ
      ((scores.total.value : ℚ) + (criticEvaluateWithRationale critic d).1
        + getAdjustment fb d.title)
      ((scores.total.max : ℚ))
    simp only [gt_iff_lt] at hc ⊢
    rw [hc]

/-- Components of a successful `score_idea` result. -/
theorem scoreIdeaParts (cfg : ScoringConfig) (sem : SemFn) (d : RawIdea)
    (s : IdeaScores) (h : scoreIdea cfg sem d = some s) :
    scoreDemand cfg sem d = some s.demand
    ∧ scoreAcquisition cfg d = some s.acquisition
    ∧ scoreMvpComplexity cfg sem d = some s.mvp_complexity
    ∧ s.competition = scoreCompetition cfg d
    ∧ scoreRevenueVelocity cfg d = some s.revenue_velocity := by
  unfold scoreIdea at h
  cases h1 : scoreDemand cfg sem d with
  | none => rw [h1] at h; exact absurd h (by simp)
  | some sd =>
    rw [h1] at h
    cases h2 : scoreAcquisition cfg d with
    | none => rw [h2] at h; exact absurd h (by simp)
    | some sa =>
      rw [h2] at h
      cases h3 : scoreMvpComplexity cfg sem d with
      | none => rw [h3] at h; exact absurd h (by simp)
      | some sm =>
        rw [h3] at h
        cases h4 : scoreRevenueVelocity cfg d with
        | none => rw [h4] at h; exact absurd h (by simp)
        | some sv =>
          rw [h4] at h
          simp only [Option.bind_eq_bind, Option.some_bind, Option.pure_def,
            Option.some.injEq] at h
          subst h
          exact ⟨rfl, rfl, rfl, rfl, rfl⟩

theorem insSortedPerm (le : α → α → Bool) (a : α) (l : List α) :
    (insSorted le a l).Perm (a :: l) := by
  induction l with
  | nil => simp [insSorted]
  | cons b t ih =>
    simp only [insSorted]
    split
    · exact List.Perm.refl _
    · exact (List.Perm.cons b ih).trans (List.Perm.swap a b t)

theorem stableSortPerm (le : α → α → Bool) (l : List α) :
    (stableSort le l).Perm l := by
  induction l with
  | nil => simp [stableSort]
  | cons a t ih =>
    exact (insSortedPerm le a _).trans (List.Perm.cons a ih)

theorem insSortedSortedDesc (a : Idea) (l : List Idea)
    (h : l.Sorted (fun x y : Idea => y.final_total ≤ x.final_total)) :
    (insSorted (fun x y => decide (x.final_total ≥ y.final_total)) a l).Sorted
      (fun x y : Idea => y.final_total ≤ x.final_total) := by
  induction l with
  | nil => simp [insSorted]
  | cons b t ih =>
    simp only [insSorted]
    split
    · next hab =>
      simp only [decide_eq_true_eq, ge_iff_le] at hab
      refine List.sorted_cons.2 ⟨?_, h⟩
      intro y hy
      rcases List.mem_cons.1 hy with hyb | hyt
      · rw [hyb]; exact hab
      · exact le_trans (List.rel_of_sorted_cons h y hyt) hab
    · next hab =>
      simp only [decide_eq_true_eq, ge_iff_le, not_le] at hab
      refine List.sorted_cons.2 ⟨?_, ih (List.sorted_cons.1 h).2⟩
      intro y hy
      have hy2 : y ∈ a :: t := (insSortedPerm _ a t).mem_iff.1 hy
      rcases List.mem_cons.1 hy2 with hya | hyt
      · rw [hya]; exact hab.le
      · exact List.rel_of_sorted_cons h y hyt

theorem sortByFinalTotalDescSorted (l : List Idea) :
    (sortByFinalTotalDesc l).Sorted (fun x y : Idea => y.final_total ≤ x.final_total) := by
  unfold sortByFinalTotalDesc
  induction l with
  | nil => simp [stableSort]
  | cons a t ih => exact insSortedSortedDesc a _ ih

theorem sortByFinalTotalDescPerm (l : List Idea) :
    (sortByFinalTotalDesc l).Perm l := stableSortPerm _ l

/-- The boolean external-signal check, as a proposition. -/
theorem hasSignalIff (d : RawIdea) :
    hasPositiveExternalSignal d = true ↔
      ((∃ v, d.search_volume = some v ∧ 1000 ≤ v)
        ∨ (∃ v, d.keyword_difficulty = some v ∧ v ≤ 50)
        ∨ lowerS (d.trend_status.getD "") = "rising") := by
  unfold hasPositiveExternalSignal
  cases hsv : d.search_volume with
  | some v =>
    cases hkd : d.keyword_difficulty with
    | some w => simp [hsv, hkd, ge_iff_le, Bool.or_eq_true, or_assoc]
    | none => simp [hsv, hkd, ge_iff_le, Bool.or_eq_true, or_assoc]
  | none =>
    cases hkd : d.keyword_difficulty with
    | some w => simp [hsv, hkd, ge_iff_le, Bool.or_eq_true, or_assoc]
    | none => simp [hsv, hkd, Bool.or_eq_true, or_assoc]

theorem scoreDemandBounds (cfg : ScoringConfig) (sem : SemFn) (d : RawIdea)
    (sd : ScoreDetail) (hm : 0 ≤ cfg.maxDemand)
    (h : scoreDemand cfg sem d = some sd) :
    0 ≤ sd.value ∧ sd.value ≤ sd.max ∧ sd.max = cfg.maxDemand := by
  unfold scoreDemand at h
  cases hb : getPriceBand cfg d.revenue_model with
  | none => rw [hb] at h; exact absurd h (by simp)
  | some band =>
    rw [hb] at h
    rcases hsem : sem d.pain "demand" with ⟨l, s, p⟩
    rw [hsem] at h
    simp only [Option.some.injEq] at h
    have hv := clampScoreBounds
      ((if (if decide (s < 0.4) || mildKeywords.any (fun k => pyInS k (lowerS d.pain))
            then "mild" else l) = "acute" then (26 : Int)
        else if (if decide (s < 0.4) || mildKeywords.any (fun k => pyInS k (lowerS d.pain))
            then "mild" else l) = "moderate" then 22 else 16)
        + cfg.adjDemand.get band) cfg.maxDemand hm
    rw [← h]
    exact ⟨hv.1, hv.2, rfl⟩

theorem scoreAcquisitionBounds (cfg : ScoringConfig) (d : RawIdea)
    (sd : ScoreDetail) (hm : 0 ≤ cfg.maxAcquisition)
    (h : scoreAcquisition cfg d = some sd) :
    0 ≤ sd.value ∧ sd.value ≤ sd.max ∧ sd.max = cfg.maxAcquisition := by
  unfold scoreAcquisition at h
  cases hb : getPriceBand cfg d.revenue_model with
  | none => rw [hb] at h; exact absurd h (by simp)
  | some band =>
    rw [hb] at h
    simp only [Option.some.injEq] at h
    rw [← h]
    exact ⟨(clampScoreBounds _ _ hm).1, (clampScoreBounds _ _ hm).2, rfl⟩

theorem scoreMvpComplexityBounds (cfg : ScoringConfig) (sem : SemFn) (d : RawIdea)
    (sd : ScoreDetail) (hm : 0 ≤ cfg.maxMvpComplexity)
    (h : scoreMvpComplexity cfg sem d = some sd) :
    0 ≤ sd.value ∧ sd.value ≤ sd.max ∧ sd.max = cfg.maxMvpComplexity := by
  unfold scoreMvpComplexity at h
  cases hb : getPriceBand cfg d.revenue_model with
  | none => rw [hb] at h; exact absurd h (by simp)
  | some band =>
    rw [hb] at h
    rcases hsem : sem d.solution "complexity" with ⟨l, s, p⟩
    rw [hsem] at h
    simp only [Option.some.injEq] at h
    rw [← h]
    exact ⟨(clampScoreBounds _ _ hm).1, (clampScoreBounds _ _ hm).2, rfl⟩

theorem scoreCompetitionBounds (cfg : ScoringConfig) (d : RawIdea)
    (hm : 0 ≤ cfg.maxCompetition) :
    0 ≤ (scoreCompetition cfg d).value
    ∧ (scoreCompetition cfg d).value ≤ (scoreCompetition cfg d).max
    ∧ (scoreCompetition cfg d).max = cfg.maxCompetition := by
  unfold scoreCompetition
  exact ⟨(clampScoreBounds _ _ hm).1, (clampScoreBounds _ _ hm).2, rfl⟩

theorem scoreRevenueVelocityBounds (cfg : ScoringConfig) (d : RawIdea)
    (sd : ScoreDetail) (hm : 0 ≤ cfg.maxRevenueVelocity)
    (h : scoreRevenueVelocity cfg d = some sd) :
    0 ≤ sd.value ∧ sd.value ≤ sd.max ∧ sd.max = cfg.maxRevenueVelocity := by
  unfold scoreRevenueVelocity at h
  cases hb : parseRevenueModel d.revenue_model with
  | none => rw [hb] at h; exact absurd h (by simp)
  | some pricing =>
    rw [hb] at h
    simp only [Option.some.injEq] at h
    rw [← h]
    exact ⟨(clampScoreBounds _ _ hm).1, (clampScoreBounds _ _ hm).2, rfl⟩

/-- C1: the critic's evaluation operation yields an
(adjustment, rationale) pair whose adjustment is the numeric critic
evaluation, and `_run_iteration` attaches exactly that pair's
components to every scored idea it produces. -/
theorem claimC1 :
    (∀ (critic : CriticConfig) (idea : RawIdea),
      (criticEvaluateWithRationale critic idea).1 = criticEvaluate critic idea)
    ∧ (∀ (cfg : ScoringConfig) (sem : SemFn) (critic : CriticConfig)
        (fb : FeedbackStore) (pool : List RawIdea) (out : List Idea),
        runIteration cfg sem critic fb pool = some out →
        ∀ i ∈ out, ∃ d ∈ pool,
          i.critic_adjustment = criticEvaluate critic d
          ∧ i.critic_rationale = (criticEvaluateWithRationale critic d).2) := by
  constructor
  · intro critic idea; rfl
  · intro cfg sem critic fb pool out hrun i hi
    obtain ⟨d, hd, hone⟩ := mapOptionMem _ _ _ hrun i hi
    obtain ⟨scores, _, hieq⟩ := scoreOneEq _ _ _ _ _ _ hone
    refine ⟨d, hd, ?_, ?_⟩
    · rw [hieq]; rfl
    · rw [hieq]



/-- C2: the recommendation of `_recommendation` is `green_build` iff
all four gating conditions hold (adjusted total ≥ 0.75·max, demand ≥
0.8·max, acquisition ≥ 0.75·max, and some positive external signal);
`yellow_validate` iff not green and the adjusted total is ≥ 0.65·max;
`red_kill` otherwise. -/
theorem claimC2 (scores : IdeaScores) (t : ℚ) (d : RawIdea) :
    (recommendationFor scores t (hasPositiveExternalSignal d) = "green_build"
      ↔ (t ≥ 0.75 * (scores.total.max : ℚ)
          ∧ (scores.demand.value : ℚ) ≥ 0.8 * (scores.demand.max : ℚ)
          ∧ (scores.acquisition.value : ℚ) ≥ 0.75 * (scores.acquisition.max : ℚ)
          ∧ ((∃ v, d.search_volume = some v ∧ 1000 ≤ v)
              ∨ (∃ v, d.keyword_difficulty = some v ∧ v ≤ 50)
              ∨ lowerS (d.trend_status.getD "") = "rising")))
    ∧ (recommendationFor scores t (hasPositiveExternalSignal d) = "yellow_validate"
        ↔ (¬(t ≥ 0.75 * (scores.total.max : ℚ)
              ∧ (scores.demand.value : ℚ) ≥ 0.8 * (scores.demand.max : ℚ)
              ∧ (scores.acquisition.value : ℚ) ≥ 0.75 * (scores.acquisition.max : ℚ)
              ∧ ((∃ v, d.search_volume = some v ∧ 1000 ≤ v)
                  ∨ (∃ v, d.keyword_difficulty = some v ∧ v ≤ 50)
                  ∨ lowerS (d.trend_status.getD "") = "rising"))
            ∧ t ≥ 0.65 * (scores.total.max : ℚ)))
    ∧ (recommendationFor scores t (hasPositiveExternalSignal d) = "red_kill"
        ↔ (¬(t ≥ 0.75 * (scores.total.max : ℚ)
              ∧ (scores.demand.value : ℚ) ≥ 0.8 * (scores.demand.max : ℚ)
              ∧ (scores.acquisition.value : ℚ) ≥ 0.75 * (scores.acquisition.max : ℚ)
              ∧ ((∃ v, d.search_volume = some v ∧ 1000 ≤ v)
                  ∨ (∃ v, d.keyword_difficulty = some v ∧ v ≤ 50)
                  ∨ lowerS (d.trend_status.getD "") = "rising"))
            ∧ ¬(t ≥ 0.65 * (scores.total.max : ℚ)))) := by
  have hsig := hasSignalIff d
  unfold recommendationFor
  split_ifs with h1 h2
  · refine ⟨?_, ?_, ?_⟩
    · simp only [true_iff]
      exact ⟨h1.1, h1.2.1, h1.2.2.1, hsig.1 h1.2.2.2⟩
    · constructor
      · intro hcontra; exact absurd hcontra (by decide)
      · intro ⟨hng, _⟩
        exact absurd ⟨h1.1, h1.2.1, h1.2.2.1, hsig.1 h1.2.2.2⟩ hng
    · constructor
      · intro hcontra; exact absurd hcontra (by decide)
      · intro ⟨hng, _⟩
        exact absurd ⟨h1.1, h1.2.1, h1.2.2.1, hsig.1 h1.2.2.2⟩ hng
  · refine ⟨?_, ?_, ?_⟩
    · constructor
      · intro hcontra; exact absurd hcontra (by decide)
      · intro ⟨ha, hb, hc, hd2⟩
        exact absurd ⟨ha, hb, hc, hsig.2 hd2⟩ h1
    · simp only [true_iff]
      refine ⟨fun hg => ?_, h2⟩
      exact h1 ⟨hg.1, hg.2.1, hg.2.2.1, hsig.2 hg.2.2.2⟩
    · constructor
      · intro hcontra; exact absurd hcontra (by decide)
      · intro ⟨_, hny⟩
        exact absurd h2 hny
  · refine ⟨?_, ?_, ?_⟩
    · constructor
      · intro hcontra; exact absurd hcontra (by decide)
      · intro ⟨ha, hb, hc, hd2⟩
        exact absurd ⟨ha, hb, hc, hsig.2 hd2⟩ h1
    · constructor
      · intro hcontra; exact absurd hcontra (by decide)
      · intro ⟨_, hy⟩
        exact absurd hy h2
    · simp only [true_iff]
      refine ⟨fun hg => ?_, h2⟩
      exact h1 ⟨hg.1, hg.2.1, hg.2.2.1, hsig.2 hg.2.2.2⟩

/-- C3: every idea produced by a scoring pass is within bounds — each
of the five `ScoreDetail`s satisfies `0 ≤ value ≤ max` with `max` the
configured maximum of its dimension, and `final_total` is exactly
`clamp(total.value + critic_adjustment + feedback_adjustment, 0,
total.max)`, hence lies in `[0, total.max]` for arbitrary critic and
feedback adjustments. -/
theorem claimC3 (cfg : ScoringConfig) (sem : SemFn) (critic : CriticConfig)
    (fb : FeedbackStore) (pool : List RawIdea) (out : List Idea)
    (hmax : 0 ≤ cfg.maxDemand ∧ 0 ≤ cfg.maxAcquisition ∧ 0 ≤ cfg.maxMvpComplexity
      ∧ 0 ≤ cfg.maxCompetition ∧ 0 ≤ cfg.maxRevenueVelocity)
    (hrun : runIteration cfg sem critic fb pool = some out) :
    ∀ i ∈ out,
      (0 ≤ i.scores.demand.value ∧ i.scores.demand.value ≤ i.scores.demand.max
        ∧ i.scores.demand.max = cfg.maxDemand)
      ∧ (0 ≤ i.scores.acquisition.value
          ∧ i.scores.acquisition.value ≤ i.scores.acquisition.max
          ∧ i.scores.acquisition.max = cfg.maxAcquisition)
      ∧ (0 ≤ i.scores.mvp_complexity.value
          ∧ i.scores.mvp_complexity.value ≤ i.scores.mvp_complexity.max
          ∧ i.scores.mvp_complexity.max = cfg.maxMvpComplexity)
      ∧ (0 ≤ i.scores.competition.value
          ∧ i.scores.competition.value ≤ i.scores.competition.max
          ∧ i.scores.competition.max = cfg.maxCompetition)
      ∧ (0 ≤ i.scores.revenue_velocity.value
          ∧ i.scores.revenue_velocity.value ≤ i.scores.revenue_velocity.max
          ∧ i.scores.revenue_velocity.max = cfg.maxRevenueVelocity)
      ∧ i.final_total =
          clampQ ((i.scores.total.value : ℚ) + i.critic_adjustment + i.feedback_adjustment)
            0 (i.scores.total.max : ℚ)
      ∧ 0 ≤ i.final_total ∧ i.final_total ≤ (i.scores.total.max : ℚ) := by
  intro i hi
  obtain ⟨d, hd, hone⟩ := mapOptionMem _ _ _ hrun i hi
  obtain ⟨scores, hs, hieq⟩ := scoreOneEq _ _ _ _ _ _ hone
  obtain ⟨h1, h2, h3, h4, h5⟩ := scoreIdeaParts _ _ _ _ hs
  have b1 := scoreDemandBounds _ _ _ _ hmax.1 h1
  have b2 := scoreAcquisitionBounds _ _ _ hmax.2.1 h2
  have b3 := scoreMvpComplexityBounds _ _ _ _ hmax.2.2.1 h3
  have b4 := scoreCompetitionBounds cfg d hmax.2.2.2.1
  have b5 := scoreRevenueVelocityBounds _ _ _ hmax.2.2.2.2 h5
  have hsc : i.scores = scores := by rw [hieq]
  have htmax : scores.total.max =
      cfg.maxDemand + cfg.maxAcquisition + cfg.maxMvpComplexity
        + cfg.maxCompetition + cfg.maxRevenueVelocity := by
    simp only [IdeaScores.total]
    rw [b1.2.2, b2.2.2, b3.2.2, h4, b4.2.2, b5.2.2]
  have htmaxNonneg : (0 : ℚ) ≤ (scores.total.max : ℚ) := by
    have hint : (0 : Int) ≤ scores.total.max := by
      rw [htmax]
      have := hmax.1; have := hmax.2.1; have := hmax.2.2.1
      have := hmax.2.2.2.1; have := hmax.2.2.2.2
      omega
    exact_mod_cast hint
  have hft : i.final_total =
      clampQ ((scores.total.value : ℚ) + i.critic_adjustment + i.feedback_adjustment)
        0 (scores.total.max : ℚ) := by
    rw [hieq]
  have hcb := clampQBounds
    ((scores.total.value : ℚ) + i.critic_adjustment + i.feedback_adjustment)
    0 (scores.total.max : ℚ) htmaxNonneg
  refine ⟨?_, ?_, ?_, ?_, ?_, ?_, ?_, ?_⟩
  · rw [hsc]; exact b1
  · rw [hsc]; exact b2
  · rw [hsc]; exact b3
  · rw [hsc, h4]; exact b4
  · rw [hsc]; exact b5
  · rw [hsc]; exact hft
  · rw [hft]; exact hcb.1
  · rw [hft, hsc]; exact hcb.2

/-- C4: the refinement loop of `run` performs at most 3 scoring
iterations, and on the first iteration whose scored batch contains a
green_build idea it stops (no further refinement) and returns that
batch, ranked by final total. -/
theorem claimC4 (α : Type) (scoreStep : α → List Idea)
    (refineStep : α → List Idea → α) (pool : α) :
    runScoreCalls scoreStep refineStep 3 pool ≤ 3
    ∧ (anyGreen (scoreStep pool) = true →
        runEngine scoreStep refineStep pool = sortByFinalTotalDesc (scoreStep pool)
        ∧ runScoreCalls scoreStep refineStep 3 pool = 1
        ∧ runRefineCalls scoreStep refineStep 3 pool = 0)
    ∧ (anyGreen (scoreStep pool) = false →
        anyGreen (scoreStep (refineStep pool (scoreStep pool))) = true →
        runEngine scoreStep refineStep pool
          = sortByFinalTotalDesc (scoreStep (refineStep pool (scoreStep pool)))
        ∧ runScoreCalls scoreStep refineStep 3 pool = 2
        ∧ runRefineCalls scoreStep refineStep 3 pool = 1)
    ∧ (anyGreen (scoreStep pool) = false →
        anyGreen (scoreStep (refineStep pool (scoreStep pool))) = false →
        anyGreen (scoreStep (refineStep (refineStep pool (scoreStep pool))
            (scoreStep (refineStep pool (scoreStep pool))))) = true →
        runEngine scoreStep refineStep pool
          = sortByFinalTotalDesc (scoreStep (refineStep (refineStep pool (scoreStep pool))
              (scoreStep (refineStep pool (scoreStep pool)))))
        ∧ runScoreCalls scoreStep refineStep 3 pool = 3
        ∧ runRefineCalls scoreStep refineStep 3 pool = 2) := by
  refine ⟨?_, ?_, ?_, ?_⟩
  · by_cases h0 : anyGreen (scoreStep pool)
    · simp [runScoreCalls, h0]
    · by_cases h1 : anyGreen (scoreStep (refineStep pool (scoreStep pool)))
      · simp [runScoreCalls, h0, h1]
      · by_cases h2 : anyGreen (scoreStep (refineStep (refineStep pool (scoreStep pool))
            (scoreStep (refineStep pool (scoreStep pool)))))
        · simp [runScoreCalls, h0, h1, h2]
        · simp [runScoreCalls, h0, h1, h2]
  · intro h0
    refine ⟨?_, ?_, ?_⟩
    · simp [runEngine, runLoop, h0]
    · simp [runScoreCalls, h0]
    · simp [runRefineCalls, h0]
  · intro h0 h1
    refine ⟨?_, ?_, ?_⟩
    · simp [runEngine, runLoop, h0, h1]
    · simp [runScoreCalls, h0, h1]
    · simp [runRefineCalls, h0, h1]
  · intro h0 h1 h2
    refine ⟨?_, ?_, ?_⟩
    · simp [runEngine, runLoop, h0, h1, h2]
    · simp [runScoreCalls, h0, h1, h2]
    · simp [runRefineCalls, h0, h1, h2]

/-- C5 (amended): when no iteration finds a green_build idea, `run`
returns the third iteration's scored batch — scored against the pool
that *triggered* the final refinement (the pool left by the second
refinement); the pool produced by the final refinement is never
scored — sorted descending by `final_total`. -/
theorem claimC5 (α : Type) (scoreStep : α → List Idea)
    (refineStep : α → List Idea → α) (pool : α)
    (h0 : anyGreen (scoreStep pool) = false)
    (h1 : anyGreen (scoreStep (refineStep pool (scoreStep pool))) = false)
    (h2 : anyGreen (scoreStep (refineStep (refineStep pool (scoreStep pool))
        (scoreStep (refineStep pool (scoreStep pool))))) = false) :
    runEngine scoreStep refineStep pool
      = sortByFinalTotalDesc (scoreStep (refineStep (refineStep pool (scoreStep pool))
          (scoreStep (refineStep pool (scoreStep pool)))))
    ∧ (runEngine scoreStep refineStep pool).Perm
        (scoreStep (refineStep (refineStep pool (scoreStep pool))
          (scoreStep (refineStep pool (scoreStep pool)))))
    ∧ (runEngine scoreStep refineStep pool).Sorted
        (fun x y : Idea => y.final_total ≤ x.final_total) := by
  have heq : runEngine scoreStep refineStep pool
      = sortByFinalTotalDesc (scoreStep (refineStep (refineStep pool (scoreStep pool))
          (scoreStep (refineStep pool (scoreStep pool))))) := by
    simp [runEngine, runLoop, h0, h1, h2]
  refine ⟨heq, ?_, ?_⟩
  · rw [heq]; exact sortByFinalTotalDescPerm _
  · rw [heq]; exact sortByFinalTotalDescSorted _

/- ---------------------------------------------------------------
   Concrete instances used by witnesses and counterexamples.
   --------------------------------------------------------------- -/

theorem sdProj :
    scoringDefaults.maxDemand = 30 ∧ scoringDefaults.maxAcquisition = 20
      ∧ scoringDefaults.maxMvpComplexity = 20 ∧ scoringDefaults.maxCompetition = 20
      ∧ scoringDefaults.maxRevenueVelocity = 10 ∧ scoringDefaults.bucketLow = 120
      ∧ scoringDefaults.bucketMid = 500 ∧ scoringDefaults.adjDemand = ⟨2, 0, -2⟩
      ∧ scoringDefaults.adjAcquisition = ⟨1, 0, -2⟩
      ∧ scoringDefaults.adjMvpComplexity = ⟨-1, 0, 1⟩ :=
  ⟨rfl, rfl, rfl, rfl, rfl, rfl, rfl, rfl, rfl, rfl⟩

/-- A minimal raw idea (all optional fields absent). -/
def wIdea : RawIdea :=
  { title := "T", icp := "", pain := "", solution := "", revenue_model := "",
    key_risks := [], credibility := none, source := none, source_date := none,
    search_volume := none, keyword_difficulty := none, trend_status := none }

/-- A concrete classifier instance: everything matches the mild/low
exemplar "p" with similarity 1. -/
def wSem : SemFn := fun _ _ => ("mild", 1, "p")

/-- A critic configuration with the built-in default magnitudes and
empty domain/keyword lists. -/
def wCritic : CriticConfig :=
  { trustedDomains := [], blockedDomains := [], noveltyKeywords := [],
    penBlockedDomain := -20, penNovelty := -10, penStale := -5,
    bonusTrustedDomain := 5, bonusRecent := 2, currentYear := 2025 }

def wFb : FeedbackStore := ⟨[]⟩

theorem wParse : parseRevenueModel "" = some ⟨[], false, false⟩ := by
  simp +decide [parseRevenueModel, scanPriceTokensEq, matchPriceAt, parseNumber,
    dropCurrency, mapOption, contactSalesTriggers, pyInS, pyIn, startsWithChars, lowerS]

theorem wBand : getPriceBand scoringDefaults "" = some PriceBand.mid := by
  simp +decide [getPriceBand, parseRevenueModel, scanPriceTokensEq, matchPriceAt,
    parseNumber, dropCurrency, mapOption, contactSalesTriggers, pyInS, pyIn,
    startsWithChars, lowerS]

theorem wScores : scoreIdea scoringDefaults wSem wIdea = some
    { demand := ⟨16, 30, "Semantic match to mild pain (p); pricing band mid adjustment applies"⟩,
      acquisition := ⟨11, 20, "Audience is broad or unclear; price band mid adjustment reflects acquisition friction at that ticket size"⟩,
      mvp_complexity := ⟨17, 20, "Solution aligns with mild complexity exemplar (p); pricing band mid adjustment applied"⟩,
      competition := ⟨12, 20, "Market breadth unclear; assume higher competitive risk; unknown pricing increases uncertainty"⟩,
      revenue_velocity := ⟨7, 10, "No explicit pricing; assume mid-range velocity"⟩ } := by
  simp +decide [scoreIdea, scoreDemand, scoreAcquisition, scoreMvpComplexity,
    scoreCompetition, scoreRevenueVelocity, wBand, wParse, wIdea, wSem,
    mildKeywords, acquisitionHighKeywords, acquisitionNicheKeywords,
    acquisitionHardKeywords, competitionBroadKeywords, competitionNicheKeywords,
    clampScore, sdProj.1, sdProj.2.1, sdProj.2.2.1, sdProj.2.2.2.1, sdProj.2.2.2.2.1,
    sdProj.2.2.2.2.2.1, sdProj.2.2.2.2.2.2.1, sdProj.2.2.2.2.2.2.2.1,
    sdProj.2.2.2.2.2.2.2.2.1, sdProj.2.2.2.2.2.2.2.2.2,
    BandAdj.get, PriceBand.name, pyInS, pyIn, startsWithChars, lowerS]
  norm_num
  decide

/-- The idea `wIdea` scores to under `wSem`, `wCritic` and `wFb`. -/
def wOut : Idea :=
  { title := "T", icp := "", pain := "", solution := "", revenue_model := "",
    search_volume := none, keyword_difficulty := none, trend_status := "Unknown",
    evidence := [],
    scores :=
      { demand := ⟨16, 30, "Semantic match to mild pain (p); pricing band mid adjustment applies"⟩,
        acquisition := ⟨11, 20, "Audience is broad or unclear; price band mid adjustment reflects acquisition friction at that ticket size"⟩,
        mvp_complexity := ⟨17, 20, "Solution aligns with mild complexity exemplar (p); pricing band mid adjustment applied"⟩,
        competition := ⟨12, 20, "Market breadth unclear; assume higher competitive risk; unknown pricing increases uncertainty"⟩,
        revenue_velocity := ⟨7, 10, "No explicit pricing; assume mid-range velocity"⟩ },
    recommendation := "red_kill", key_risks := [],
    final_total := 63, critic_adjustment := 0, feedback_adjustment := 0,
    critic_rationale := "" }

theorem wRunIter :
    runIteration scoringDefaults wSem wCritic wFb [wIdea] = some [wOut] := by
  simp only [runIteration, mapOption, scoreOne, wScores]
  simp +decide [wIdea, wCritic, wFb, wOut, criticEvaluateWithRationale, criticEvaluate,
    criticRecency, extractDomain, joinSemicolon, getAdjustment, assocGet,
    hasPositiveExternalSignal, recommendationFor, IdeaScores.total, lowerS, pyInS,
    pyIn, startsWithChars]
  norm_num

theorem claimC1Witness :
    runIteration scoringDefaults wSem wCritic wFb [wIdea] = some [wOut]
    ∧ (∃ d ∈ [wIdea], wOut.critic_adjustment = criticEvaluate wCritic d
        ∧ wOut.critic_rationale = (criticEvaluateWithRationale wCritic d).2) :=
  ⟨wRunIter,
    claimC1.2 scoringDefaults wSem wCritic wFb [wIdea] [wOut] wRunIter wOut
      (by simp)⟩

theorem claimC3Witness :
    (0 ≤ scoringDefaults.maxDemand ∧ 0 ≤ scoringDefaults.maxAcquisition
      ∧ 0 ≤ scoringDefaults.maxMvpComplexity ∧ 0 ≤ scoringDefaults.maxCompetition
      ∧ 0 ≤ scoringDefaults.maxRevenueVelocity)
    ∧ runIteration scoringDefaults wSem wCritic wFb [wIdea] = some [wOut]
    ∧ ∀ i ∈ [wOut],
        (0 ≤ i.scores.demand.value ∧ i.scores.demand.value ≤ i.scores.demand.max
          ∧ i.scores.demand.max = scoringDefaults.maxDemand)
        ∧ (0 ≤ i.scores.acquisition.value
            ∧ i.scores.acquisition.value ≤ i.scores.acquisition.max
            ∧ i.scores.acquisition.max = scoringDefaults.maxAcquisition)
        ∧ (0 ≤ i.scores.mvp_complexity.value
            ∧ i.scores.mvp_complexity.value ≤ i.scores.mvp_complexity.max
            ∧ i.scores.mvp_complexity.max = scoringDefaults.maxMvpComplexity)
        ∧ (0 ≤ i.scores.competition.value
            ∧ i.scores.competition.value ≤ i.scores.competition.max
            ∧ i.scores.competition.max = scoringDefaults.maxCompetition)
        ∧ (0 ≤ i.scores.revenue_velocity.value
            ∧ i.scores.revenue_velocity.value ≤ i.scores.revenue_velocity.max
            ∧ i.scores.revenue_velocity.max = scoringDefaults.maxRevenueVelocity)
        ∧ i.final_total =
            clampQ ((i.scores.total.value : ℚ) + i.critic_adjustment + i.feedback_adjustment)
              0 (i.scores.total.max : ℚ)
        ∧ 0 ≤ i.final_total ∧ i.final_total ≤ (i.scores.total.max : ℚ) :=
  ⟨by decide, wRunIter,
    claimC3 scoringDefaults wSem wCritic wFb [wIdea] [wOut] (by decide) wRunIter⟩

/-- A scored idea carrying a green recommendation. -/
def wGreenIdea : Idea := { wOut with title := "G", recommendation := "green_build" }

def wScoreStepG : Nat → List Idea := fun _ => [wGreenIdea]

def wRefineStep : Nat → List Idea → Nat := fun p _ => p + 1

theorem claimC4Witness :
    anyGreen (wScoreStepG 0) = true
    ∧ (runEngine wScoreStepG wRefineStep 0 = sortByFinalTotalDesc (wScoreStepG 0)
        ∧ runScoreCalls wScoreStepG wRefineStep 3 0 = 1
        ∧ runRefineCalls wScoreStepG wRefineStep 3 0 = 0) :=
  ⟨by decide, (claimC4 Nat wScoreStepG wRefineStep 0).2.1 (by decide)⟩

/-- Never-green scored batches whose `final_total` records which pool
state was scored. -/
def ceIdea (n : Nat) : Idea := { wOut with final_total := n }

def ceScoreStep : Nat → List Idea := fun p => [ceIdea p]

def ceRefineStep : Nat → List Idea → Nat := fun p _ => p + 1

/-- C5 counterexample: a run with no green idea in any iteration whose
returned list differs from the scores of the pool *after* the final
refinement — the loop scores pools 0, 1, 2 and returns the scores of
pool 2, although the final refinement has already produced pool 3. -/
theorem claimC5Counterexample :
    anyGreen (ceScoreStep 0) = false ∧ anyGreen (ceScoreStep 1) = false
    ∧ anyGreen (ceScoreStep 2) = false
    ∧ runEngine ceScoreStep ceRefineStep 0 = sortByFinalTotalDesc (ceScoreStep 2)
    ∧ ceRefineStep (ceRefineStep (ceRefineStep 0 (ceScoreStep 0)) (ceScoreStep 1))
        (ceScoreStep 2) = 3
    ∧ runEngine ceScoreStep ceRefineStep 0 ≠ sortByFinalTotalDesc (ceScoreStep 3) := by
  refine ⟨by decide, by decide, by decide, ?_, rfl, ?_⟩
  · simp [runEngine, runLoop, ceScoreStep, ceRefineStep, anyGreen, ceIdea, wOut]
  · intro h
    simp [runEngine, runLoop, sortByFinalTotalDesc, stableSort, insSorted,
      ceScoreStep, ceRefineStep, anyGreen, ceIdea, wOut] at h

theorem claimC5Witness :
    anyGreen (ceScoreStep 0) = false
    ∧ anyGreen (ceScoreStep (ceRefineStep 0 (ceScoreStep 0))) = false
    ∧ anyGreen (ceScoreStep (ceRefineStep (ceRefineStep 0 (ceScoreStep 0))
        (ceScoreStep (ceRefineStep 0 (ceScoreStep 0))))) = false
    ∧ (runEngine ceScoreStep ceRefineStep 0
        = sortByFinalTotalDesc (ceScoreStep (ceRefineStep (ceRefineStep 0 (ceScoreStep 0))
            (ceScoreStep (ceRefineStep 0 (ceScoreStep 0)))))
      ∧ (runEngine ceScoreStep ceRefineStep 0).Perm
          (ceScoreStep (ceRefineStep (ceRefineStep 0 (ceScoreStep 0))
            (ceScoreStep (ceRefineStep 0 (ceScoreStep 0)))))
      ∧ (runEngine ceScoreStep ceRefineStep 0).Sorted
          (fun x y : Idea => y.final_total ≤ x.final_total)) :=
  ⟨by decide, by decide, by decide,
    claimC5 Nat ceScoreStep ceRefineStep 0 (by decide) (by decide) (by decide)⟩

/-- The price-band classification chain as the spec states it, applied
to a parse result: contact-sales → high; freemium with no prices →
low; no prices → mid; otherwise bucket the average price. -/
def bandOfParsed (cfg : ScoringConfig) (p : ParsedRevenue) : PriceBand :=
  if p.contact_sales then PriceBand.high
  else if p.freemium ∧ p.prices = [] then PriceBand.low
  else if p.prices = [] then PriceBand.mid
  else if p.prices.sum / (p.prices.length : ℚ) ≤ cfg.bucketLow then PriceBand.low
  else if p.prices.sum / (p.prices.length : ℚ) ≤ cfg.bucketMid then PriceBand.mid
  else PriceBand.high

/-- C7 counterexample: `"49/month"` contains no currency symbol at all,
yet the parser collects the token `49` (the regex's currency prefix is
optional) and the band becomes "low", where the claim's "no
currency-prefixed tokens → no prices parsed" would give "mid"; and
`"$1.234.56"` makes the uncaught `float` conversion raise instead of
degrading. -/
theorem claimC7Counterexample :
    (∀ c ∈ "49/month".data, isCurrency c = false)
    ∧ parseRevenueModel "49/month" = some ⟨[49], false, false⟩
    ∧ getPriceBand scoringDefaults "49/month" = some PriceBand.low
    ∧ PriceBand.low ≠ PriceBand.mid
    ∧ parseRevenueModel "$1.234.56" = none := by
  refine ⟨by decide, ?_, ?_, by decide, ?_⟩
  · simp +decide [parseRevenueModel, scanPriceTokensEq, matchPriceAt, parseNumber,
      thousandGroups, decimalPart, dropCurrency, mapOption, pyFloat, digitsVal,
      contactSalesTriggers, pyInS, pyIn, startsWithChars, lowerS]
  · simp +decide [getPriceBand, parseRevenueModel, scanPriceTokensEq, matchPriceAt,
      parseNumber, thousandGroups, decimalPart, dropCurrency, mapOption, pyFloat,
      digitsVal, contactSalesTriggers, pyInS, pyIn, startsWithChars, lowerS,
      sdProj.2.2.2.2.2.1]
  · simp +decide [parseRevenueModel, scanPriceTokensEq, matchPriceAt, parseNumber,
      thousandGroups, decimalPart, dropCurrency, mapOption, pyFloat,
      contactSalesTriggers, pyInS, pyIn, startsWithChars, lowerS]

/-- C7 (amended): the parser collects every numeric token the price
regex finds — the currency prefix is optional and a range contributes
both endpoints — and the band classification is: contact-sales →
high; else freemium with no prices → low; else no prices → mid; else
the average of the collected prices bucketed by the two thresholds; a
token carrying two decimal points makes the parse raise `ValueError`
(it does not degrade). -/
theorem claimC7 :
    (∀ (cfg : ScoringConfig) (s : String) (p : ParsedRevenue),
        parseRevenueModel s = some p → getPriceBand cfg s = some (bandOfParsed cfg p))
    ∧ parseRevenueModel "49/month" = some ⟨[49], false, false⟩
    ∧ parseRevenueModel "$49–149/month" = some ⟨[49, 149], false, false⟩
    ∧ parseRevenueModel "$1.234.56" = none := by
  refine ⟨?_, ?_, ?_, ?_⟩
  · intro cfg s p hp
    unfold getPriceBand
    rw [hp]
    rfl
  · simp +decide [parseRevenueModel, scanPriceTokensEq, matchPriceAt, parseNumber,
      thousandGroups, decimalPart, dropCurrency, mapOption, pyFloat, digitsVal,
      contactSalesTriggers, pyInS, pyIn, startsWithChars, lowerS]
  · simp +decide [parseRevenueModel, scanPriceTokensEq, matchPriceAt, parseNumber,
      thousandGroups, decimalPart, dropCurrency, mapOption, pyFloat, digitsVal,
      contactSalesTriggers, pyInS, pyIn, startsWithChars, lowerS]
  · simp +decide [parseRevenueModel, scanPriceTokensEq, matchPriceAt, parseNumber,
      thousandGroups, decimalPart, dropCurrency, mapOption, pyFloat,
      contactSalesTriggers, pyInS, pyIn, startsWithChars, lowerS]

theorem claimC7Witness :
    parseRevenueModel "" = some ⟨[], false, false⟩
    ∧ getPriceBand scoringDefaults ""
        = some (bandOfParsed scoringDefaults ⟨[], false, false⟩) :=
  ⟨wParse, claimC7.1 scoringDefaults "" ⟨[], false, false⟩ wParse⟩

/-- C8: the feedback adjustment is `(rating − 2.5)·2` for a stored
rating, looked up case-insensitively by title; a missing title gives
0; as a function of the rating it is strictly increasing with values
−5, 0, +5 at ratings 0, 2.5, 5. -/
theorem claimC8 :
    (∀ (entries : List (String × ℚ)) (title : String) (r : ℚ),
        assocGet (feedbackOfRatings entries).feedback (lowerS title) = some r →
        getAdjustment (feedbackOfRatings entries) title = (r - 2.5) * 2)
    ∧ (∀ (m : FeedbackStore) (title : String),
        assocGet m.feedback (lowerS title) = none → getAdjustment m title = 0)
    ∧ (∀ (m : FeedbackStore) (t1 t2 : String), lowerS t1 = lowerS t2 →
        getAdjustment m t1 = getAdjustment m t2)
    ∧ (∀ r1 r2 : ℚ, r1 < r2 →
        getAdjustment (feedbackOfRatings [("t", r1)]) "t"
          < getAdjustment (feedbackOfRatings [("t", r2)]) "t")
    ∧ getAdjustment (feedbackOfRatings [("t", 0)]) "t" = -5
    ∧ getAdjustment (feedbackOfRatings [("t", 2.5)]) "t" = 0
    ∧ getAdjustment (feedbackOfRatings [("t", 5)]) "t" = 5 := by
  have key : ∀ r : ℚ, getAdjustment (feedbackOfRatings [("t", r)]) "t" = (r - 2.5) * 2 := by
    intro r
    have hl : lowerS "t" = "t" := by decide
    simp [getAdjustment, feedbackOfRatings, assocSet, assocGet, hl]
  refine ⟨?_, ?_, ?_, ?_, ?_, ?_, ?_⟩
  · intro entries title r h
    simp only [getAdjustment, h]
  · intro m title h
    simp only [getAdjustment, h]
    norm_num
  · intro m t1 t2 h
    simp only [getAdjustment, h]
  · intro r1 r2 h
    rw [key, key]
    nlinarith
  · rw [key]; norm_num
  · rw [key]; norm_num
  · rw [key]; norm_num

theorem claimC8Witness :
    assocGet (feedbackOfRatings [("My Idea", 5)]).feedback (lowerS "MY IDEA") = some 5
    ∧ getAdjustment (feedbackOfRatings [("My Idea", 5)]) "MY IDEA" = ((5 : ℚ) - 2.5) * 2 :=
  ⟨by decide, claimC8.1 [("My Idea", 5)] "MY IDEA" 5 (by decide)⟩

theorem assocGetSet (d : List (String × β)) (k : String) (v : β) (k2 : String) :
    assocGet (assocSet d k v) k2 = if k = k2 then some v else assocGet d k2 := by
  induction d with
  | nil => simp [assocSet, assocGet]
  | cons kv t ih =>
    rcases kv with ⟨k0, v0⟩
    simp only [assocSet]
    by_cases h0 : k0 = k
    · subst h0
      by_cases h2 : k0 = k2
      · simp [assocGet, h2]
      · simp [assocGet, h2]
    · rw [if_neg h0]
      by_cases h2 : k0 = k2
      · subst h2
        have hk : ¬ k = k0 := fun h => h0 h.symm
        simp [assocGet, hk]
      · simp only [assocGet, if_neg h2]
        exact ih

theorem dUpdateAbsent (dv ov : List (String × JVal)) (sk : String)
    (h : assocGet ov sk = none) : assocGet (dUpdate dv ov) sk = assocGet dv sk := by
  induction ov generalizing dv with
  | nil => rfl
  | cons kv t ih =>
    rcases kv with ⟨k0, v0⟩
    simp only [assocGet] at h
    by_cases h0 : k0 = sk
    · rw [if_pos h0] at h; exact absurd h (by simp)
    · rw [if_neg h0] at h
      simp only [dUpdate, List.foldl_cons]
      have := ih (assocSet dv k0 v0) h
      simp only [dUpdate] at this
      rw [this, assocGetSet, if_neg h0]

theorem scoringMergeAbsent (d u : List (String × JVal)) (k : String)
    (h : assocGet u k = none) :
    assocGet (scoringMerge d u) k = assocGet d k := by
  induction d with
  | nil => rfl
  | cons kv t ih =>
    rcases kv with ⟨k0, v0⟩
    simp only [scoringMerge, List.map_cons]
    by_cases h0 : k0 = k
    · subst h0
      cases hu : assocGet u k0 with
      | none =>
        cases v0 with
        | jint n => simp [assocGet]
        | jstrs l => simp [assocGet]
        | jdict dv => simp [assocGet]
      | some uv => rw [hu] at h; exact absurd h (by simp)
    · cases hu : assocGet u k0 with
      | none =>
        cases v0 with
        | jint n => simpa [assocGet, h0] using ih
        | jstrs l => simpa [assocGet, h0] using ih
        | jdict dv => simpa [assocGet, h0] using ih
      | some uv =>
        cases uv with
        | jint n => simpa [assocGet, h0] using ih
        | jstrs l => simpa [assocGet, h0] using ih
        | jdict uvd =>
          cases v0 with
          | jint n => simpa [assocGet, h0] using ih
          | jstrs l => simpa [assocGet, h0] using ih
          | jdict dvd => simpa [assocGet, h0] using ih
  

theorem scoringMergePresent (d u : List (String × JVal)) (k : String)
    (dv uv : List (String × JVal))
    (hd : assocGet d k = some (JVal.jdict dv))
    (hu : assocGet u k = some (JVal.jdict uv)) :
    assocGet (scoringMerge d u) k = some (JVal.jdict (dUpdate dv uv)) := by
  induction d with
  | nil => simp [assocGet] at hd
  | cons kv t ih =>
    rcases kv with ⟨k0, v0⟩
    simp only [assocGet] at hd
    by_cases h0 : k0 = k
    · rw [if_pos h0] at hd
      simp only [Option.some.injEq] at hd
      subst hd
      subst h0
      simp only [scoringMerge, List.map_cons, hu, assocGet]
      simp
    · rw [if_neg h0] at hd
      have ihr := ih hd
      simp only [scoringMerge, List.map_cons] at ihr ⊢
      cases hu0 : assocGet u k0 with
      | none =>
        cases v0 with
        | jint n => simpa [assocGet, h0] using ihr
        | jstrs l => simpa [assocGet, h0] using ihr
        | jdict dvd => simpa [assocGet, h0] using ihr
      | some uv0 =>
        cases uv0 with
        | jint n => simpa [assocGet, h0] using ihr
        | jstrs l => simpa [assocGet, h0] using ihr
        | jdict uvd =>
          cases v0 with
          | jint n => simpa [assocGet, h0] using ihr
          | jstrs l => simpa [assocGet, h0] using ihr
          | jdict dvd => simpa [assocGet, h0] using ihr

/-- C9 counterexample: a corrupt (present but undecodable)
configuration file IS fatal to constructing the scoring engine —
`ScoringEngine._load_config` catches only `FileNotFoundError`, so
`json.JSONDecodeError` propagates out of the constructor. -/
theorem claimC9Counterexample :
    scoringLoadConfig ConfigFile.corrupt = Except.error () := rfl

/-- C9 (amended): a missing configuration file is never fatal (both
components fall back to their built-in defaults) and a corrupt file is
not fatal to the Critic; the ScoringEngine merges each top-level
section of a parsed user config over the defaults field-by-field
(absent top-level keys and absent nested keys keep their defaults),
but a corrupt file raises in the ScoringEngine, and the Critic uses a
parsed user config wholesale — a present top-level section replaces
the default section entirely, so its absent nested keys are lost. -/
theorem claimC9 :
    scoringLoadConfig ConfigFile.missing = Except.ok scoringDefaultJ
    ∧ criticLoadConfig ConfigFile.missing = criticDefaultJ
    ∧ criticLoadConfig ConfigFile.corrupt = criticDefaultJ
    ∧ (∀ (user : List (String × JVal)) (k : String) (out : List (String × JVal)),
        assocGet user k = none →
        scoringLoadConfig (ConfigFile.parsed user) = Except.ok out →
        assocGet out k = assocGet scoringDefaultJ k)
    ∧ (∀ (user : List (String × JVal)) (k sk : String)
        (dv uv : List (String × JVal)) (out : List (String × JVal)),
        assocGet scoringDefaultJ k = some (JVal.jdict dv) →
        assocGet user k = some (JVal.jdict uv) →
        assocGet uv sk = none →
        scoringLoadConfig (ConfigFile.parsed user) = Except.ok out →
        assocGet out k = some (JVal.jdict (dUpdate dv uv))
          ∧ assocGet (dUpdate dv uv) sk = assocGet dv sk)
    ∧ (∀ user, criticLoadConfig (ConfigFile.parsed user) = user)
    ∧ (criticGetSection
          (criticLoadConfig
            (ConfigFile.parsed [("penalties", JVal.jdict [("novelty", JVal.jint (-10))])]))
          "penalties"
          (JVal.jdict
            [("blocked_domain", JVal.jint (-20)), ("novelty", JVal.jint (-10)),
             ("stale", JVal.jint (-5))])
        = JVal.jdict [("novelty", JVal.jint (-10))]
      ∧ assocGet [("novelty", JVal.jint (-10))] "blocked_domain" = none) := by
  refine ⟨rfl, rfl, rfl, ?_, ?_, fun user => rfl, rfl, rfl⟩
  · intro user k out habs hload
    simp only [scoringLoadConfig, Except.ok.injEq] at hload
    subst hload
    exact scoringMergeAbsent _ _ _ habs
  · intro user k sk dv uv out hd hu hsk hload
    simp only [scoringLoadConfig, Except.ok.injEq] at hload
    subst hload
    exact ⟨scoringMergePresent _ _ _ _ _ hd hu, dUpdateAbsent _ _ _ hsk⟩

theorem claimC9Witness :
    assocGet scoringDefaultJ "maxima"
        = some (JVal.jdict
            [("demand", JVal.jint 30), ("acquisition", JVal.jint 20),
             ("mvp_complexity", JVal.jint 20), ("competition", JVal.jint 20),
             ("revenue_velocity", JVal.jint 10)])
    ∧ assocGet [("maxima", JVal.jdict [("demand", JVal.jint 40)])] "maxima"
        = some (JVal.jdict [("demand", JVal.jint 40)])
    ∧ assocGet [("demand", JVal.jint 40)] "acquisition" = none
    ∧ scoringLoadConfig
        (ConfigFile.parsed [("maxima", JVal.jdict [("demand", JVal.jint 40)])])
        = Except.ok
            (scoringMerge scoringDefaultJ [("maxima", JVal.jdict [("demand", JVal.jint 40)])])
    ∧ (assocGet
          (scoringMerge scoringDefaultJ [("maxima", JVal.jdict [("demand", JVal.jint 40)])])
          "maxima"
        = some (JVal.jdict
            (dUpdate
              [("demand", JVal.jint 30), ("acquisition", JVal.jint 20),
               ("mvp_complexity", JVal.jint 20), ("competition", JVal.jint 20),
               ("revenue_velocity", JVal.jint 10)]
              [("demand", JVal.jint 40)]))
      ∧ assocGet
          (dUpdate
            [("demand", JVal.jint 30), ("acquisition", JVal.jint 20),
             ("mvp_complexity", JVal.jint 20), ("competition", JVal.jint 20),
             ("revenue_velocity", JVal.jint 10)]
            [("demand", JVal.jint 40)])
          "acquisition"
        = assocGet
            [("demand", JVal.jint 30), ("acquisition", JVal.jint 20),
             ("mvp_complexity", JVal.jint 20), ("competition", JVal.jint 20),
             ("revenue_velocity", JVal.jint 10)]
            "acquisition") :=
  ⟨rfl, rfl, rfl, rfl,
    claimC9.2.2.2.2.1
      [("maxima", JVal.jdict [("demand", JVal.jint 40)])] "maxima" "acquisition"
      [("demand", JVal.jint 30), ("acquisition", JVal.jint 20),
       ("mvp_complexity", JVal.jint 20), ("competition", JVal.jint 20),
       ("revenue_velocity", JVal.jint 10)]
      [("demand", JVal.jint 40)]
      (scoringMerge scoringDefaultJ [("maxima", JVal.jdict [("demand", JVal.jint 40)])])
      rfl rfl rfl rfl⟩

/-- C10: the refinement step selects demand as the weakest dimension
exactly when the pool's mean demand value/max ratio is ≤ the mean
acquisition ratio, so an exact tie selects demand, and the replacement
candidates are then ranked by their demand score (then total). -/
theorem claimC10 :
    (∀ scored : List Idea,
        weakestDimension scored = RefineDim.demand
          ↔ avgDimFrac RefineDim.demand scored ≤ avgDimFrac RefineDim.acquisition scored)
    ∧ (∀ scored : List Idea,
        avgDimFrac RefineDim.demand scored = avgDimFrac RefineDim.acquisition scored →
        weakestDimension scored = RefineDim.demand)
    ∧ (∀ (cfg : ScoringConfig) (sem : SemFn) (researched pool : List RawIdea)
        (scored : List Idea),
        scored.countP (fun i => decide (i.recommendation = "green_build")) = 0 →
        avgDimFrac RefineDim.demand scored = avgDimFrac RefineDim.acquisition scored →
        refineDataset cfg sem researched pool scored =
          match mapOption (fun i => (scoreIdea cfg sem i).map (fun sc => (i, sc)))
              (researched.filter
                (fun i =>
                  !(((refineFiltered pool scored).map RawIdea.title).contains i.title))) with
          | none => none
          | some cands =>
            some (refineFiltered pool scored
              ++ ((stableSort (candLe RefineDim.demand) cands).take 3).map Prod.fst)) := by
  have h1 : ∀ scored : List Idea,
      weakestDimension scored = RefineDim.demand
        ↔ avgDimFrac RefineDim.demand scored ≤ avgDimFrac RefineDim.acquisition scored := by
    intro scored
    unfold weakestDimension
    by_cases h : avgDimFrac RefineDim.demand scored ≤ avgDimFrac RefineDim.acquisition scored
    · simp [h]
    · simp [h]
  have h2 : ∀ scored : List Idea,
      avgDimFrac RefineDim.demand scored = avgDimFrac RefineDim.acquisition scored →
      weakestDimension scored = RefineDim.demand :=
    fun scored h => (h1 scored).2 (le_of_eq h)
  refine ⟨h1, h2, ?_⟩
  intro cfg sem researched pool scored hc havg
  unfold refineDataset
  rw [hc, h2 scored havg]
  simp

theorem claimC10Witness :
    ([] : List Idea).countP (fun i => decide (i.recommendation = "green_build")) = 0
    ∧ avgDimFrac RefineDim.demand [] = avgDimFrac RefineDim.acquisition []
    ∧ refineDataset scoringDefaults wSem [] [] [] =
        match mapOption
            (fun i => (scoreIdea scoringDefaults wSem i).map (fun sc => (i, sc)))
            (([] : List RawIdea).filter
              (fun i => !(((refineFiltered [] []).map RawIdea.title).contains i.title))) with
        | none => none
        | some cands =>
          some (refineFiltered [] []
            ++ ((stableSort (candLe RefineDim.demand) cands).take 3).map Prod.fst) :=
  ⟨rfl, rfl, claimC10.2.2 scoringDefaults wSem [] [] [] rfl rfl⟩
